import Mathlib

/-!
# go-openvpn-static: process supervisor and server middlewares

A shallow embedding of

* `openvpn/middlewares/server/filter/middleware.go` (packet filter emitter),
* `openvpn/middlewares/server/credentials/middleware.go` (auth gate),
* `openvpn/cmd_wrapper.go` (process supervisor),
* `openvpn/process.go` (supervisor facade),
* the line-consuming middlewares of `openvpn/middlewares/client/bytescount` and
  `openvpn/middlewares/state`, of which only the tests are at hand,

followed by the theorems that settle the specification's claims about them.
-/

namespace Openvpn

/-- Go `error` value: `none` is `nil`, `some m` is an error whose message is `m`. -/
abbrev GoError := Option String

/-! ## The template engine used by `filterLAN`

`filterLAN` is built by `html/template` from the constant `filterLANTemplate`.
The engine below covers the constructs that constant uses: literal text, the
trim markers, field access, variable access, and `range $x := .Field` ... `end`.
-/

/-- Lexical items of a template: literal text, or the inside of a pair of delimiters. -/
inductive Item where
  | text (s : List Char)
  | action (s : List Char)
  deriving DecidableEq, Repr

/-- Scanner position: outside or inside a pair of delimiters. -/
inductive Mode where
  | text
  | action
  deriving DecidableEq, Repr

/-- White space as the template lexer understands it. -/
def isSpace (c : Char) : Bool :=
  c == ' ' || c == '\t' || c == '\r' || c == '\n'

/-- Split the template source at the delimiters. The accumulator holds the
characters of the current item in reverse. An unclosed action is an error. -/
def scan : Mode → List Char → List Char → Option (List Item)
  | .text, acc, [] => some [.text acc.reverse]
  | .action, _, [] => none
  | .text, acc, '{' :: '{' :: rest =>
      (scan .action [] rest).map (fun r => .text acc.reverse :: r)
  | .action, acc, '}' :: '}' :: rest =>
      (scan .text [] rest).map (fun r => .action acc.reverse :: r)
  | m, acc, c :: rest => scan m (c :: acc) rest

/-- Drop leading white space. -/
def trimLeft (cs : List Char) : List Char := cs.dropWhile isSpace

/-- Drop trailing white space. -/
def trimRight (cs : List Char) : List Char := (cs.reverse.dropWhile isSpace).reverse

/-- An action that opens with the trim marker: a minus sign followed by white space. -/
def hasLeftTrimMarker : List Char → Bool
  | '-' :: c :: _ => isSpace c
  | _ => false

/-- An action that closes with the trim marker: white space followed by a minus sign. -/
def hasRightTrimMarker (a : List Char) : Bool := hasLeftTrimMarker a.reverse

/-- The action without its trim markers. -/
def stripMarkers (a : List Char) : List Char :=
  let a1 := if hasLeftTrimMarker a then a.drop 2 else a
  if hasRightTrimMarker a1 then (a1.reverse.drop 2).reverse else a1

/-- Apply the trim markers: a left marker trims the end of the text before the
action, a right marker trims the start of the text after it. The flag says whether
the previous action carried a right marker. -/
def trimItems : Bool → List Item → List Item
  | _, [] => []
  | fromLeft, .text t :: rest =>
      let t1 := if fromLeft then trimLeft t else t
      let t2 :=
        match rest with
        | .action a :: _ => if hasLeftTrimMarker a then trimRight t1 else t1
        | _ => t1
      .text t2 :: trimItems false rest
  | _, .action a :: rest => .action (stripMarkers a) :: trimItems (hasRightTrimMarker a) rest

/-- Split an action into its space-separated words; the accumulator is reversed. -/
def words : List Char → List Char → List String
  | acc, [] => if acc.isEmpty then [] else [String.mk acc.reverse]
  | acc, c :: rest =>
      if isSpace c then
        (if acc.isEmpty then words [] rest else String.mk acc.reverse :: words [] rest)
      else words (c :: acc) rest

/-- The actions the engine understands. -/
inductive Action where
  | field (name : String)
  | variable (name : String)
  | range (var field : String)
  | endBlock
  deriving DecidableEq, Repr

/-- Name after a one-character sigil, when the word starts with that sigil. -/
def afterSigil (sigil : Char) (w : String) : Option String :=
  match w.data with
  | c :: name => if c = sigil then some (String.mk name) else none
  | [] => none

/-- Read one action from its words. -/
def parseAction : List String → Option Action
  | [w] =>
      if w = "end" then some .endBlock
      else match afterSigil '.' w with
        | some f => some (.field f)
        | none => (afterSigil '$' w).map .variable
  | [kw, v, op, f] =>
      if kw = "range" ∧ op = ":=" then
        match afterSigil '$' v, afterSigil '.' f with
        | some x, some y => some (.range x y)
        | _, _ => none
      else none
  | _ => none

/-- Tokens: literal text or a parsed action. -/
inductive Tok where
  | text (s : String)
  | act (a : Action)
  deriving DecidableEq, Repr

/-- Turn the trimmed items into tokens; a text that trimming left empty is dropped. -/
def tokens : List Item → Option (List Tok)
  | [] => some []
  | .text t :: rest =>
      if t.isEmpty then tokens rest
      else (tokens rest).map (fun r => .text (String.mk t) :: r)
  | .action a :: rest =>
      match parseAction (words [] a) with
      | some act => (tokens rest).map (fun r => .act act :: r)
      | none => none

/-- Parse tree of a template. -/
inductive Node where
  | text (s : String)
  | field (name : String)
  | variable (name : String)
  | range (var field : String) (body : List Node)
  deriving Repr

/-- Build the nodes up to the next unmatched `end` (or the end of input) and
return them with the tokens that are left. The first argument bounds the depth
of the recursion. -/
def build : Nat → List Tok → Option (List Node × List Tok)
  | 0, _ => none
  | _ + 1, [] => some ([], [])
  | _ + 1, .act .endBlock :: rest => some ([], .act .endBlock :: rest)
  | n + 1, .text s :: rest => (build n rest).map (fun p => (.text s :: p.1, p.2))
  | n + 1, .act (.field f) :: rest => (build n rest).map (fun p => (.field f :: p.1, p.2))
  | n + 1, .act (.variable x) :: rest =>
      (build n rest).map (fun p => (.variable x :: p.1, p.2))
  | n + 1, .act (.range x f) :: rest =>
      match build n rest with
      | some (body, .act .endBlock :: rest2) =>
          (build n rest2).map (fun p => (.range x f body :: p.1, p.2))
      | _ => none

/-- Parse a template source: `template.New(..).Parse(src)`; `none` is a parse error. -/
def parseTemplate (src : String) : Option (List Node) :=
  match scan .text [] src.data with
  | none => none
  | some items =>
      match tokens (trimItems false items) with
      | none => none
      | some toks =>
          match build (toks.length + 1) toks with
          | some (nodes, []) => some nodes
          | _ => none

/-- Values a template can be executed on. -/
inductive Value where
  | int (n : Int)
  | str (s : String)
  | strs (l : List String)
  deriving DecidableEq, Repr

/-- Replacement of `html/template` for one character in HTML text context
(`htmlReplacementTable`: NUL, the double quote 34, the ampersand, the single quote 39,
plus, less-than and greater-than); `none` leaves the character as it is. -/
def htmlReplacement (c : Char) : Option String :=
  if c = Char.ofNat 0 then some "\uFFFD"
  else if c = Char.ofNat 34 then some "&#34;"
  else if c = '&' then some "&amp;"
  else if c = Char.ofNat 39 then some "&#39;"
  else if c = '+' then some "&#43;"
  else if c = '<' then some "&lt;"
  else if c = '>' then some "&gt;"
  else none

/-- The escaper `html/template` applies to every action in HTML text context. -/
def htmlEscaper (s : String) : String :=
  String.join (s.data.map (fun c => (htmlReplacement c).getD (String.singleton c)))

/-- Default formatting of a value (`fmt.Sprint`). -/
def printValue : Value → String
  | .int n => toString n
  | .str s => s
  | .strs l => "[" ++ " ".intercalate l ++ "]"

/-- Concatenate the outputs, failing when one of them failed. -/
def joinOutputs : List (Option String) → Option String
  | [] => some ""
  | none :: _ => none
  | some a :: rest => (joinOutputs rest).map (fun b => a ++ b)

mutual
/-- Execute one node; `none` is an execution error. A `range` runs its body once
per element of the slice, the element bound to the variable. -/
def execNode (data : String → Option Value) (vars : List (String × Value)) :
    Node → Option String
  | .text s => some s
  | .field f => (data f).map (fun v => htmlEscaper (printValue v))
  | .variable x => (vars.lookup x).map (fun v => htmlEscaper (printValue v))
  | .range x f body =>
      match data f with
      | some (.strs l) =>
          joinOutputs (l.map (fun e => execNodes data ((x, .str e) :: vars) body))
      | _ => none
/-- Execute a list of nodes in order. -/
def execNodes (data : String → Option Value) (vars : List (String × Value)) :
    List Node → Option String
  | [] => some ""
  | n :: ns =>
      match execNode data vars n, execNodes data vars ns with
      | some a, some b => some (a ++ b)
      | _, _ => none
end

/-- Execution of a parsed template on a data value: `Template.Execute`. -/
def executeTemplate (t : Option (List Node)) (data : String → Option Value) : Option String :=
  match t with
  | none => none
  | some nodes => execNodes data [] nodes

/-! ## Packet filter emitter: `middlewares/server/filter/middleware.go` -/

/-- The constant `filterLANTemplate`:
```
client-pf {{.ClientID}}
[CLIENTS DROP]
[SUBNETS ACCEPT]
{{- range $subnet := .Allow}}
+{{$subnet}}
{{- end}}
{{- range $subnet := .Block}}
-{{$subnet}}
{{- end}}
[END]
END
```
(the braces are written as `\x7b` and `\x7d`). -/
def filterLANTemplate : String :=
  "client-pf \x7b\x7b.ClientID\x7d\x7d\n[CLIENTS DROP]\n[SUBNETS ACCEPT]\n" ++
  "\x7b\x7b- range $subnet := .Allow\x7d\x7d\n+\x7b\x7b$subnet\x7d\x7d\n\x7b\x7b- end\x7d\x7d\n" ++
  "\x7b\x7b- range $subnet := .Block\x7d\x7d\n-\x7b\x7b$subnet\x7d\x7d\n\x7b\x7b- end\x7d\x7d\n" ++
  "[END]\nEND\n"

/-- The parsed template `filterLAN`. -/
def filterLAN : Option (List Node) := parseTemplate filterLANTemplate

/-- Kinds of client event (`server.ClientEvent.EventType`). -/
inductive EventType where
  | Connect
  | Reauth
  | Established
  | Disconnect
  deriving DecidableEq, Repr

/-- The event published by the client-event base (`server.ClientEvent`). `Env` is
the Go map from variable name to value, as an association list. -/
structure ClientEvent where
  EventType : EventType
  ClientID : Int
  ClientKey : Int
  Env : List (String × String)
  deriving Repr

/-- The two operations of `management.CommandWriter`, as the record of a call. -/
inductive Command where
  | SingleLineCommand (text : String)
  | MultilineCommand (text : String)
  deriving DecidableEq, Repr

/-- The management channel seen from a middleware: the error each call returns. -/
structure CommandWriter where
  reply : Command → GoError

/-- The anonymous struct `filterSubnets` executes the template on, seen through
field lookup by name. -/
def filterData (clientID : Int) (allow block : List String) : String → Option Value :=
  fun name =>
    if name = "ClientID" then some (.int clientID)
    else if name = "Allow" then some (.strs allow)
    else if name = "Block" then some (.strs block)
    else none

/-- Embedding of `filterSubnets`: the calls made on the command writer, in order, and the
returned error. A failed template execution returns before any call. -/
def filterSubnets (commandWriter : CommandWriter) (clientID : Int) (allow block : List String) :
    List Command × GoError :=
  match executeTemplate filterLAN (filterData clientID allow block) with
  | none => ([], some "template: filter_lan: execution failed")
  | some tpl => ([.SingleLineCommand tpl], commandWriter.reply (.SingleLineCommand tpl))

/-- The text a command carries. -/
def Command.text : Command → String
  | .SingleLineCommand t => t
  | .MultilineCommand t => t

/-- The characters of a subnet in CIDR notation: digits, hex letters, dot, colon, slash. -/
def isCIDRChar (c : Char) : Bool :=
  c.isDigit || ('a' ≤ c && c ≤ 'f') || ('A' ≤ c && c ≤ 'F') || c == '.' || c == ':' || c == '/'

/-- A call of the multi-line operation. -/
def Command.isMultiline : Command → Bool
  | .MultilineCommand _ => true
  | .SingleLineCommand _ => false

/-- Log levels of the logging collaborator. -/
inductive LogLevel where
  | Debug
  | Info
  | Warn
  | Error
  deriving DecidableEq, Repr

/-- The packet filter `middleware` struct: its command writer and its two subnet lists. -/
structure middleware where
  commandWriter : CommandWriter
  allow : List String
  block : List String

/-- Embedding of the filter middleware's `handleClientEvent`: the calls made on the command
writer and the levels of the lines logged. -/
def middleware.handleClientEvent (m : middleware) (event : ClientEvent) :
    List Command × List LogLevel :=
  match event.EventType with
  | .Connect | .Reauth =>
      let r := filterSubnets m.commandWriter event.ClientID m.allow m.block
      match r.2 with
      | some _ => (r.1, [.Error])
      | none => (r.1, [])
  | _ => ([], [])

/-! ## Auth gate: `middlewares/server/credentials/middleware.go` -/

/-- The callback type `Validator`:
`func(clientID int, username, password string) (bool, error)`. -/
abbrev Validator := Int → String → String → Bool × GoError

/-- What the auth gate does to its collaborators: a call of the validator, a call of
`ClientDenyWithMessage` or `ClientAccept` of the embedded `auth.Middleware` (each one
command on the management channel), or a line given to the logger. -/
inductive AuthEffect where
  | validator (clientID : Int) (username password : String)
  | ClientDenyWithMessage (clientID clientKey : Int) (message : String)
  | ClientAccept (clientID clientKey : Int)
  | log (level : LogLevel)
  deriving DecidableEq, Repr

/-- The credentials `Middleware` struct: the validator, and for the embedded
`auth.Middleware` the error each of its commands returns. -/
structure Middleware where
  validator : Validator
  reply : AuthEffect → GoError

/-- Embedding of `Middleware.authenticateClient`: the effects in order and the returned error. -/
def Middleware.authenticateClient (m : Middleware) (clientID clientKey : Int)
    (username password : String) : List AuthEffect × GoError :=
  if username = "" ∨ password = "" then
    let deny := AuthEffect.ClientDenyWithMessage clientID clientKey "missing username or password"
    ([.log .Info, deny], m.reply deny)
  else
    let r := m.validator clientID username password
    match r.2 with
    | some _ =>
        let deny := AuthEffect.ClientDenyWithMessage clientID clientKey "internal error"
        ([.log .Info, .validator clientID username password, .log .Error, deny], m.reply deny)
    | none =>
        if r.1 = false then
          let deny :=
            AuthEffect.ClientDenyWithMessage clientID clientKey "wrong username or password"
          ([.log .Info, .validator clientID username password, deny], m.reply deny)
        else
          let accept := AuthEffect.ClientAccept clientID clientKey
          ([.log .Info, .validator clientID username password, accept], m.reply accept)

/-- Lookup in a Go map of strings: a missing key gives the empty string. -/
def envGet (env : List (String × String)) (key : String) : String :=
  (env.lookup key).getD ""

/-- Embedding of the auth gate's `Middleware.handleClientEvent`: the effects in order. -/
def Middleware.handleClientEvent (m : Middleware) (event : ClientEvent) : List AuthEffect :=
  match event.EventType with
  | .Connect | .Reauth =>
      let username := envGet event.Env "username"
      let password := envGet event.Env "password"
      let r := m.authenticateClient event.ClientID event.ClientKey username password
      match r.2 with
      | some _ => r.1 ++ [.log .Error]
      | none => r.1
  | .Established => [.log .Info]
  | .Disconnect => [.log .Info]

/-- The commands among the effects: the accept and deny calls. -/
def commands (l : List AuthEffect) : List AuthEffect :=
  l.filter fun e =>
    match e with
    | .ClientDenyWithMessage _ _ _ => true
    | .ClientAccept _ _ => true
    | _ => false

/-- The argument tuples of the validator calls among the effects. -/
def validatorCalls : List AuthEffect → List (Int × String × String)
  | [] => []
  | .validator i u p :: rest => (i, u, p) :: validatorCalls rest
  | _ :: rest => validatorCalls rest

/-! ## Process supervisor: `cmd_wrapper.go` -/

/-- What `CmdWrapper.Start` uses of the `*exec.Cmd` the command factory returns: the
argument vector `Args`, and the results of `StdoutPipe`, `StderrPipe` and `Start`. -/
structure ExecCmd where
  Args : List String
  StdoutPipe : GoError
  StderrPipe : GoError
  Start : GoError
  deriving DecidableEq, Repr

/-- The factory type `CommandFunc`: `func(arg ...string) *exec.Cmd`. -/
abbrev CommandFunc := List String → ExecCmd

/-- What `CmdWrapper.Start` sets going, in order. -/
inductive StartEffect where
  | log (level : LogLevel)
  | goOutputToLog (stream : String)
  | cmdStart
  | goWaitForExit
  | waiterAdd
  | goWaitForShutdown
  deriving DecidableEq, Repr

/-- A process or a background task set going by `Start`. -/
def StartEffect.launches : StartEffect → Bool
  | .log _ => false
  | .waiterAdd => false
  | _ => true

/-- A Go channel of errors: the queued values, the capacity, and whether it is closed. -/
structure Chan where
  buf : List GoError
  cap : Nat
  closed : Bool
  deriving DecidableEq, Repr

/-- The state-carrying fields of the `CmdWrapper` struct. Nothing is ever sent on
`cmdShutdownStarted`, so that channel is its closed flag; `cmdShutdownWaiter` is the
counter of the wait group, `closesOnce` the done flag of the `sync.Once`. -/
structure CmdWrapper where
  CmdExitError : Chan
  cmdShutdownStarted : Bool
  cmdShutdownWaiter : Nat
  closesOnce : Bool
  deriving DecidableEq, Repr

/-- Embedding of `CmdWrapper.Start`: the effects in order and the returned error. The
process runs when `cmdStart` is among the effects and the returned error is nil. -/
def CmdWrapper.Start (command : CommandFunc) (arguments : List String) :
    List StartEffect × GoError :=
  let cmd := command arguments
  if cmd.Args.length = 0 then
    ([], some "nothing to execute for an empty command")
  else
    match cmd.StdoutPipe with
    | some err => ([.log .Info], some err)
    | none =>
      match cmd.StderrPipe with
      | some err => ([.log .Info], some err)
      | none =>
        match cmd.Start with
        | some err =>
            ([.log .Info, .goOutputToLog "Stdout:", .goOutputToLog "Stderr:", .cmdStart], some err)
        | none =>
            ([.log .Info, .goOutputToLog "Stdout:", .goOutputToLog "Stderr:", .cmdStart,
              .goWaitForExit, .waiterAdd, .goWaitForShutdown], none)

/-- Embedding of `NewCmdWrapper`: an exit-error channel of capacity one, an open
shutdown trigger, an empty wait group. -/
def NewCmdWrapper : CmdWrapper :=
  { CmdExitError := { buf := [], cap := 1, closed := false }
    cmdShutdownStarted := false
    cmdShutdownWaiter := 0
    closesOnce := false }

/-- Where the goroutine `waitForExit` stands: before `cmd.Wait()` returns, before the
send of the error it returned, before the close, or finished. -/
inductive ExitPC where
  | osWait
  | send (err : GoError)
  | close
  | done
  deriving DecidableEq, Repr

/-- Where the goroutine running `waitForShutdown` stands: before the receive on the
shutdown trigger, before the signal, before the receive on the exit-error channel,
before the deferred `Done`, or finished. -/
inductive ShutdownPC where
  | awaitShutdown
  | signal
  | awaitExit
  | waiterDone
  | done
  deriving DecidableEq, Repr

/-- Who receives from `CmdExitError`: a call of `Wait`, the goroutine
`waitForShutdown`, or the `select` of `OpenvpnProcess.Start`. -/
inductive Receiver where
  | Wait
  | waitForShutdown
  | Start
  deriving DecidableEq, Repr

/-- A completed receive: who received, the value, and the `ok` flag of the receive
(false for the zero value of a closed and drained channel). -/
structure Received where
  who : Receiver
  val : GoError
  ok : Bool
  deriving DecidableEq, Repr

/-- A started wrapper with its process and goroutines. `process` is `none` while the
process runs and `some err` once it has terminated with `cmd.Wait()` result `err`.
The last fields are the history: values sent on `CmdExitError`, executions of
`close(CmdExitError)`, executions of `close(cmdShutdownStarted)`, calls of
`cmd.Process.Signal`, completed receives on `CmdExitError` in order, the `Stop` calls
that are past `closesOnce.Do` and have not returned, and whether a run-time panic
(send on or close of a closed channel, negative wait-group counter) has happened. -/
structure System where
  cw : CmdWrapper
  process : Option GoError
  waitForExit : ExitPC
  waitForShutdown : ShutdownPC
  sent : List GoError
  closes : Nat
  triggerCloses : Nat
  signals : Nat
  received : List Received
  stopping : Nat
  fault : Bool
  deriving DecidableEq, Repr

/-- The system right after a successful `Start` on a new wrapper: the process runs,
`waitForExit` and the shutdown goroutine are at their first statement, and the
wait-group counter is one (`cmdShutdownWaiter.Add(1)`). -/
def started : System :=
  { cw := { NewCmdWrapper with cmdShutdownWaiter := 1 }
    process := none
    waitForExit := .osWait
    waitForShutdown := .awaitShutdown
    sent := []
    closes := 0
    triggerCloses := 0
    signals := 0
    received := []
    stopping := 0
    fault := false }

/-- A receive on a channel: a queued value if there is one, the zero value with
`ok = false` if the channel is closed and drained, and `none` (the receiver blocks)
otherwise. -/
def Chan.recv (c : Chan) : Option (GoError × Bool × Chan) :=
  match c.buf with
  | v :: rest => some (v, true, { c with buf := rest })
  | [] => if c.closed then some (none, false, c) else none

/-- The atomic steps of the system, chosen by the scheduler. -/
inductive Step where
  | processExit (err : GoError)
  | waitForExit
  | waitForShutdown
  | recv (who : Receiver)
  | stopOnce
  | stopReturn
  deriving DecidableEq, Repr

/-- The operating system reports the termination of the process. -/
def stepProcessExit (err : GoError) (s : System) : Option System :=
  match s.process with
  | none => some { s with process := some err }
  | some _ => none

/-- One statement of `waitForExit`: `err := cmd.Wait()`, then `cw.CmdExitError <- err`,
then `close(cw.CmdExitError)`. -/
def stepWaitForExit (s : System) : Option System :=
  match s.waitForExit with
  | .osWait =>
      match s.process with
      | some err => some { s with waitForExit := .send err }
      | none => none
  | .send err =>
      if s.cw.CmdExitError.closed then some { s with fault := true }
      else if s.cw.CmdExitError.buf.length < s.cw.CmdExitError.cap then
        some { s with
          cw := { s.cw with
            CmdExitError := { s.cw.CmdExitError with buf := s.cw.CmdExitError.buf ++ [err] } }
          sent := s.sent ++ [err]
          waitForExit := .close }
      else none
  | .close =>
      if s.cw.CmdExitError.closed then some { s with fault := true }
      else
        some { s with
          cw := { s.cw with CmdExitError := { s.cw.CmdExitError with closed := true } }
          closes := s.closes + 1
          waitForExit := .done }
  | .done => none

/-- One statement of the goroutine that runs `waitForShutdown` and then the deferred
`cmdShutdownWaiter.Done()`. -/
def stepWaitForShutdown (s : System) : Option System :=
  match s.waitForShutdown with
  | .awaitShutdown =>
      if s.cw.cmdShutdownStarted then some { s with waitForShutdown := .signal } else none
  | .signal => some { s with signals := s.signals + 1, waitForShutdown := .awaitExit }
  | .awaitExit =>
      match s.cw.CmdExitError.recv with
      | some (v, ok, c) =>
          some { s with
            cw := { s.cw with CmdExitError := c }
            received := s.received ++ [{ who := .waitForShutdown, val := v, ok := ok }]
            waitForShutdown := .waiterDone }
      | none => none
  | .waiterDone =>
      if s.cw.cmdShutdownWaiter = 0 then some { s with fault := true }
      else
        some { s with
          cw := { s.cw with cmdShutdownWaiter := s.cw.cmdShutdownWaiter - 1 }
          waitForShutdown := .done }
  | .done => none

/-- A receive `<-cw.CmdExitError` by `Wait` or by the `select` of `OpenvpnProcess.Start`. -/
def stepRecv (who : Receiver) (s : System) : Option System :=
  match who with
  | .waitForShutdown => none
  | _ =>
      match s.cw.CmdExitError.recv with
      | some (v, ok, c) =>
          some { s with
            cw := { s.cw with CmdExitError := c }
            received := s.received ++ [{ who := who, val := v, ok := ok }] }
      | none => none

/-- The first statement of `Stop`: `closesOnce.Do(func() { close(cmdShutdownStarted) })`. -/
def stepStopOnce (s : System) : Option System :=
  if s.cw.closesOnce then some { s with stopping := s.stopping + 1 }
  else if s.cw.cmdShutdownStarted then some { s with fault := true }
  else
    some { s with
      cw := { s.cw with closesOnce := true, cmdShutdownStarted := true }
      triggerCloses := s.triggerCloses + 1
      stopping := s.stopping + 1 }

/-- The second statement of `Stop`: `cmdShutdownWaiter.Wait()` returns once the
counter is zero. -/
def stepStopReturn (s : System) : Option System :=
  if 0 < s.stopping ∧ s.cw.cmdShutdownWaiter = 0 then
    some { s with stopping := s.stopping - 1 }
  else none

/-- One step of the system; `none` when the statement cannot execute in this state
(it blocks, its goroutine has finished, or the program has panicked). -/
def step (l : Step) (s : System) : Option System :=
  if s.fault then none
  else
    match l with
    | .processExit err => stepProcessExit err s
    | .waitForExit => stepWaitForExit s
    | .waitForShutdown => stepWaitForShutdown s
    | .recv who => stepRecv who s
    | .stopOnce => stepStopOnce s
    | .stopReturn => stepStopReturn s

/-- Run a schedule; `none` when one of its steps cannot execute. -/
def run : List Step → System → Option System
  | [], s => some s
  | l :: ls, s => (step l s).bind (run ls)

/-- One complete call of `Stop` with no other step in between. -/
def stopCall : List Step := [.stopOnce, .stopReturn]

/-- The result of the last receive by `who`, that is what its `<-cw.CmdExitError` returned. -/
def lastReceived (who : Receiver) (s : System) : Option GoError :=
  ((s.received.filter (fun r => r.who = who)).getLast?).map (fun r => r.val)

/-! ## Supervisor facade: `process.go` -/

/-- The case of the `select` in `OpenvpnProcess.Start` that fires first. -/
inductive SelectCase where
  | Connected (connAccepted : Bool)
  | CmdExitError (exitError : GoError)
  | After
  deriving DecidableEq, Repr

/-- Calls `OpenvpnProcess.Start` makes on its collaborators. -/
inductive ProcessEffect where
  | tunnelSetup
  | managementWaitForConnection
  | setManagementAddress
  | toArguments
  | cmd (e : StartEffect)
  | cmdStop
  | managementStop
  | tunnelStop
  deriving DecidableEq, Repr

/-- What the collaborators of `OpenvpnProcess.Start` answer in one run: the results of
`tunnelSetup.Setup`, `management.WaitForConnection` and `config.ToArguments`, the
command factory of the wrapper, and the case of the `select` that fires. -/
structure StartEnv where
  Setup : GoError
  WaitForConnection : GoError
  ToArguments : List String × GoError
  command : CommandFunc
  select : SelectCase

/-- Embedding of `OpenvpnProcess.Start`: the calls in order and the returned error. -/
def OpenvpnProcess.Start (env : StartEnv) : List ProcessEffect × GoError :=
  match env.Setup with
  | some err => ([.tunnelSetup], some err)
  | none =>
    match env.WaitForConnection with
    | some err => ([.tunnelSetup, .managementWaitForConnection, .tunnelStop], some err)
    | none =>
      let pre : List ProcessEffect :=
        [.tunnelSetup, .managementWaitForConnection, .setManagementAddress, .toArguments]
      match env.ToArguments.2 with
      | some err => (pre ++ [.managementStop, .tunnelStop], some err)
      | none =>
        let r := CmdWrapper.Start env.command env.ToArguments.1
        let pre := pre ++ r.1.map ProcessEffect.cmd
        match r.2 with
        | some err => (pre ++ [.managementStop, .tunnelStop], some err)
        | none =>
          match env.select with
          | .Connected connAccepted =>
              if connAccepted then (pre, none)
              else (pre, some "management failed to accept connection")
          | .CmdExitError exitError =>
              match exitError with
              | some err => (pre ++ [.managementStop, .tunnelStop], some err)
              | none =>
                  (pre ++ [.managementStop, .tunnelStop], some "openvpn process died too early")
          | .After => (pre, some "management connection wait timeout")

/-- What holds of the exit-error channel and its history at each position of `waitForExit`. -/
def ExitInv (s : System) : ExitPC → Prop
  | .osWait =>
      s.cw.CmdExitError.buf = [] ∧ s.cw.CmdExitError.closed = false ∧ s.sent = [] ∧
        s.closes = 0 ∧ s.received = []
  | .send e =>
      s.process = some e ∧ s.cw.CmdExitError.buf = [] ∧ s.cw.CmdExitError.closed = false ∧
        s.sent = [] ∧ s.closes = 0 ∧ s.received = []
  | .close =>
      s.cw.CmdExitError.closed = false ∧ s.closes = 0 ∧
        ∃ e, s.process = some e ∧ s.sent = [e] ∧
          ((s.cw.CmdExitError.buf = [e] ∧ s.received = []) ∨
            (s.cw.CmdExitError.buf = [] ∧ ∃ w, s.received = [⟨w, e, true⟩]))
  | .done =>
      s.cw.CmdExitError.closed = true ∧ s.closes = 1 ∧
        ∃ e, s.process = some e ∧ s.sent = [e] ∧
          ((s.cw.CmdExitError.buf = [e] ∧ s.received = []) ∨
            (s.cw.CmdExitError.buf = [] ∧ ∃ w rest, s.received = ⟨w, e, true⟩ :: rest ∧
              ∀ r ∈ rest, r.val = none ∧ r.ok = false))

/-- What holds of the shutdown side at each position of the shutdown goroutine. -/
def ShutdownInv (s : System) : ShutdownPC → Prop
  | .awaitShutdown =>
      s.signals = 0 ∧ s.cw.cmdShutdownWaiter = 1 ∧
        ∀ r ∈ s.received, r.who ≠ Receiver.waitForShutdown
  | .signal =>
      s.cw.closesOnce = true ∧ s.signals = 0 ∧ s.cw.cmdShutdownWaiter = 1 ∧
        ∀ r ∈ s.received, r.who ≠ Receiver.waitForShutdown
  | .awaitExit =>
      s.cw.closesOnce = true ∧ s.signals = 1 ∧ s.cw.cmdShutdownWaiter = 1 ∧
        ∀ r ∈ s.received, r.who ≠ Receiver.waitForShutdown
  | .waiterDone =>
      s.cw.closesOnce = true ∧ s.signals = 1 ∧ s.cw.cmdShutdownWaiter = 1 ∧
        ∃ r ∈ s.received, r.who = Receiver.waitForShutdown
  | .done =>
      s.cw.closesOnce = true ∧ s.signals = 1 ∧ s.cw.cmdShutdownWaiter = 0 ∧
        ∃ r ∈ s.received, r.who = Receiver.waitForShutdown

/-- The invariant of the system. -/
structure Inv (s : System) : Prop where
  nofault : s.fault = false
  cap : s.cw.CmdExitError.cap = 1
  exit : ExitInv s s.waitForExit
  trigger : s.cw.cmdShutdownStarted = s.cw.closesOnce ∧
    s.triggerCloses = (if s.cw.closesOnce then 1 else 0)
  shutdown : ShutdownInv s s.waitForShutdown

/-- The state after the schedule in which the process exits with an error, `waitForExit`
sends and closes, and `Wait` receives twice. -/
def exitedAndReceivedTwice : System :=
  { cw :=
      { CmdExitError := { buf := [], cap := 1, closed := true }
        cmdShutdownStarted := false
        cmdShutdownWaiter := 1
        closesOnce := false }
    process := some (some "exit status 1")
    waitForExit := .done
    waitForShutdown := .awaitShutdown
    sent := [some "exit status 1"]
    closes := 1
    triggerCloses := 0
    signals := 0
    received := [⟨.Wait, some "exit status 1", true⟩, ⟨.Wait, none, false⟩]
    stopping := 0
    fault := false }

/-- The state in which a first `Stop` call is about to return: the trigger is closed,
the watcher has signalled, the process has exited with the error of the interrupt,
and the watcher has received that error and has finished. -/
def stopAboutToReturn : System :=
  { cw :=
      { CmdExitError := { buf := [], cap := 1, closed := false }
        cmdShutdownStarted := true
        cmdShutdownWaiter := 0
        closesOnce := true }
    process := some (some "signal: interrupt")
    waitForExit := .close
    waitForShutdown := .done
    sent := [some "signal: interrupt"]
    closes := 0
    triggerCloses := 1
    signals := 1
    received := [⟨.waitForShutdown, some "signal: interrupt", true⟩]
    stopping := 1
    fault := false }

/-! ## Line-consuming middlewares: `middlewares/client/bytescount` and `middlewares/state`

Only the tests of these two packages are in the repository snapshot; the middlewares
themselves are modelled from the specification.
-/

/-- Modelled from the spec: the test for a leading marker used by the line-consuming
middlewares (their `middleware.go` files are missing). Gives the rest of the line when
the line starts with the marker, and `none` otherwise. -/
def stripLeading : List Char → List Char → Option (List Char)
  | [], l => some l
  | _ :: _, [] => none
  | p :: ps, c :: cs => if p = c then stripLeading ps cs else none

/-- Modelled from the spec: the split of a comma-separated line (the middlewares'
`middleware.go` files are missing) into the field before the first comma and the text
after it; without a comma the text after it is empty. -/
def splitComma (l : List Char) : List Char × List Char :=
  (l.takeWhile (fun c => c != ','), (l.dropWhile (fun c => c != ',')).drop 1)

/-- Modelled from the spec: the value of a run of decimal digits after the value `acc`
of the digits before it; `none` when a character is not a digit. Part of the missing
numeric parse of the Byte Counter. -/
def parseDigits : Nat → List Char → Option Nat
  | acc, [] => some acc
  | acc, c :: cs =>
      if c.isDigit then parseDigits (10 * acc + (c.toNat - '0'.toNat)) cs else none

/-- Modelled from the spec: the numeric parse of the Byte Counter (its `middleware.go` is
missing): a field is a base-10 unsigned integer, that is a non-empty run of decimal
digits; an empty or non-numeric field is a parse error (`none`). The specification
gives the counters no width, so the value is a natural number. -/
def parseUint : List Char → Option Nat
  | [] => none
  | c :: cs => parseDigits 0 (c :: cs)

/-- The text of a base-10 unsigned integer: non-empty, decimal digits only. -/
def isUintText (s : String) : Prop :=
  s.data ≠ [] ∧ ∀ c ∈ s.data, c.isDigit = true

/-- What `ConsumeLine` of the Byte Counter reports: whether the line was consumed, the
error, and the calls of the recorder as pairs of received and sent. -/
structure BytecountResult where
  consumed : Bool
  err : GoError
  recorded : List (Nat × Nat)
  deriving DecidableEq, Repr

/-- Modelled from the spec: `ConsumeLine` of the Byte Counter middleware, whose source
`middlewares/client/bytescount/middleware.go` is missing. A line without the exact
marker `>BYTECOUNT:` is declined. Otherwise the line is consumed: the rest is
`<received>,<sent>`, both fields unsigned integers; a malformed field is a parse error
naming the field and nothing is recorded; two good fields are given to the recorder
once. -/
def bytescount.ConsumeLine (line : String) : BytecountResult :=
  match stripLeading ">BYTECOUNT:".data line.data with
  | none => { consumed := false, err := none, recorded := [] }
  | some rest =>
      match parseUint (splitComma rest).1 with
      | none =>
          { consumed := true
            err := some ("parsing " ++ String.mk (splitComma rest).1 ++ ": invalid syntax")
            recorded := [] }
      | some received =>
          match parseUint (splitComma rest).2 with
          | none =>
              { consumed := true
                err := some ("parsing " ++ String.mk (splitComma rest).2 ++ ": invalid syntax")
                recorded := [] }
          | some sent => { consumed := true, err := none, recorded := [(received, sent)] }

/-- Modelled from the spec: the closed enumeration of states (`openvpn.State`, whose
declaration is missing), with the constant names the tests use. `ProcessStarted` is
synthetic: it is emitted locally and is not a state name of the daemon. -/
inductive State where
  | ProcessStarted
  | ConnectingState
  | AssignIpState
  | AuthenticatingState
  | ReconnectingState
  | WaitState
  | ConnectedState
  | ExitingState
  deriving DecidableEq, Repr

/-- Modelled from the spec: the state names of the daemon that the State Tracker
recognizes, each with its state (the lookup table of the missing
`middlewares/state/middleware.go`); the names are those of the lines in
`middleware_test.go`. -/
def recognizedStates : List (String × State) :=
  [("CONNECTING", .ConnectingState), ("ASSIGN_IP", .AssignIpState),
   ("AUTH", .AuthenticatingState), ("RECONNECTING", .ReconnectingState),
   ("WAIT", .WaitState), ("CONNECTED", .ConnectedState), ("EXITING", .ExitingState)]

/-- What `ConsumeLine` of the State Tracker reports: whether the line was consumed, the
error, and the calls of the subscribers in order, each with the state it was given. -/
structure StateResult where
  consumed : Bool
  err : GoError
  delivered : List (Nat × State)
  deriving DecidableEq, Repr

/-- Modelled from the spec: `ConsumeLine` of the State Tracker middleware, whose source
`middlewares/state/middleware.go` is missing. The subscribers are given by their
identifiers, in the order of their subscription. A line without the marker `>STATE:`
is declined. Otherwise the line is consumed: the rest is
`<timestamp>,<STATE_NAME>,<fields>`; the name is looked up in the enumeration; an
unrecognized name is a parse error and no subscriber is called; a recognized one is
given to every subscriber once. -/
def state.ConsumeLine (subscribers : List Nat) (line : String) : StateResult :=
  match stripLeading ">STATE:".data line.data with
  | none => { consumed := false, err := none, delivered := [] }
  | some rest =>
      match recognizedStates.lookup (String.mk (splitComma (splitComma rest).2).1) with
      | none =>
          { consumed := true
            err := some ("unrecognized state in line: " ++ String.mk rest)
            delivered := [] }
      | some st =>
          { consumed := true, err := none, delivered := subscribers.map (fun s => (s, st)) }

/-- One of the characters the HTML escaper replaces: NUL, the double quote, the
ampersand, the single quote, plus, less-than, greater-than. -/
def isHtmlSpecial (c : Char) : Bool :=
  c == Char.ofNat 0 || c == Char.ofNat 34 || c == '&' || c == Char.ofNat 39 || c == '+' ||
    c == '<' || c == '>'

/-! # Theorems -/

/-! ## Lemmas on strings -/

theorem foldl_append_eq (l : List String) (acc : String) :
    l.foldl (fun r s => r ++ s) acc = acc ++ l.foldl (fun r s => r ++ s) "" := by
  induction l generalizing acc with
  | nil => simp [String.ext_iff]
  | cons a l ih =>
    simp only [List.foldl_cons]
    rw [ih (acc ++ a), ih ("" ++ a)]
    simp [String.ext_iff]

theorem join_nil : String.join [] = "" := rfl

theorem join_cons (a : String) (l : List String) : String.join (a :: l) = a ++ String.join l := by
  unfold String.join
  simp only [List.foldl_cons]
  rw [foldl_append_eq]
  simp [String.ext_iff]

theorem htmlEscaper_id_aux (l : List Char) (h : ∀ c ∈ l, htmlReplacement c = none) :
    (String.join (l.map (fun c => (htmlReplacement c).getD (String.singleton c)))).data = l := by
  induction l with
  | nil => rfl
  | cons c l ih =>
    simp only [List.map_cons, join_cons, String.data_append]
    rw [ih (fun d hd => h d (List.mem_cons_of_mem _ hd)), h c (List.mem_cons_self _ _)]
    simp

theorem htmlEscaper_id (s : String) (h : ∀ c ∈ s.data, htmlReplacement c = none) :
    htmlEscaper s = s :=
  String.ext (htmlEscaper_id_aux s.data h)

theorem htmlReplacement_of_isCIDRChar (c : Char) (h : isCIDRChar c = true) :
    htmlReplacement c = none := by
  unfold htmlReplacement
  split_ifs with h0 h1 h2 h3 h4 h5 h6
  all_goals first
    | rfl
    | (subst_vars; revert h; decide)

theorem filterLAN_eq :
    filterLAN = some
      [.text "client-pf ", .field "ClientID", .text "\n[CLIENTS DROP]\n[SUBNETS ACCEPT]",
       .range "subnet" "Allow" [.text "\n+", .variable "subnet"],
       .range "subnet" "Block" [.text "\n-", .variable "subnet"],
       .text "\n[END]\nEND\n"] := by
  rfl

theorem toDigitsCore_safe (P : Char → Prop) (hP : ∀ k, k < 10 → P (Nat.digitChar k))
    (fuel : Nat) : ∀ (n : Nat) (ds : List Char), (∀ c ∈ ds, P c) →
      ∀ c ∈ Nat.toDigitsCore 10 fuel n ds, P c := by
  induction fuel with
  | zero => intro n ds h; simpa [Nat.toDigitsCore] using h
  | succ f ih =>
    intro n ds h
    have hd : P (Nat.digitChar (n % 10)) := hP _ (Nat.mod_lt _ (by decide))
    have hds : ∀ c ∈ Nat.digitChar (n % 10) :: ds, P c := by
      intro c hc
      rcases List.mem_cons.1 hc with rfl | hc
      · exact hd
      · exact h c hc
    unfold Nat.toDigitsCore
    dsimp only
    split_ifs
    · exact hds
    · exact ih _ _ hds

theorem digitChar_safe : ∀ k, k < 10 → htmlReplacement (Nat.digitChar k) = none := by
  decide

theorem natRepr_safe (m : Nat) : ∀ c ∈ (toString m).data, htmlReplacement c = none := by
  show ∀ c ∈ (Nat.repr m).data, htmlReplacement c = none
  unfold Nat.repr Nat.toDigits
  simp only [List.asString]
  exact toDigitsCore_safe _ digitChar_safe _ _ _ (by simp)

theorem intToString_safe (n : Int) : ∀ c ∈ (toString n).data, htmlReplacement c = none := by
  cases n with
  | ofNat m => exact natRepr_safe m
  | negSucc m =>
    show ∀ c ∈ ("-" ++ toString (Nat.succ m)).data, htmlReplacement c = none
    intro c hc
    simp only [String.data_append, List.mem_append] at hc
    rcases hc with hc | hc
    · have : c = '-' := by simpa using hc
      subst this
      decide
    · exact natRepr_safe _ c hc

theorem joinOutputs_map_some (f : String → String) (l : List String) :
    joinOutputs (l.map (fun e => some (f e))) = some (String.join (l.map f)) := by
  induction l with
  | nil => rfl
  | cons a l ih => simp [joinOutputs, ih, join_cons]

theorem shift_newline (sign : String) (l : List String) (t : List Char) :
    (String.join (l.map fun e => "\n" ++ sign ++ e)).data ++ '\n' :: t =
      '\n' :: (String.join (l.map fun a => sign ++ a ++ "\n")).data ++ t := by
  induction l with
  | nil => rfl
  | cons a l ih =>
    simp only [List.map_cons, join_cons, String.data_append, List.append_assoc]
    rw [ih]
    simp

theorem map_escaped (sign : String) (l : List String)
    (h : ∀ a ∈ l, ∀ c ∈ a.data, isCIDRChar c = true) :
    l.map (fun e => sign ++ htmlEscaper e) = l.map (fun e => sign ++ e) := by
  apply List.map_congr_left
  intro a ha
  rw [htmlEscaper_id a (fun c hc => htmlReplacement_of_isCIDRChar c (h a ha c hc))]

theorem executeTemplate_filterLAN (n : Int) (allow block : List String) :
    executeTemplate filterLAN (filterData n allow block) =
      some ("client-pf " ++ htmlEscaper (toString n) ++ "\n[CLIENTS DROP]\n[SUBNETS ACCEPT]" ++
        String.join (allow.map fun e => "\n+" ++ htmlEscaper e) ++
        String.join (block.map fun e => "\n-" ++ htmlEscaper e) ++ "\n[END]\nEND\n") := by
  rw [filterLAN_eq]
  simp [executeTemplate, execNodes, execNode, filterData, printValue, List.lookup,
    joinOutputs_map_some, String.ext_iff]

/-- The four cases of `middleware_test.go`: the texts `emptyFilter`, `allowFilter`,
`blockFilter` and `bothFilter` are what the embedding writes for client 0. -/
theorem handleClientEvent_repository_tests :
    (middleware.handleClientEvent ⟨⟨fun _ => none⟩, [], []⟩ ⟨.Connect, 0, 0, []⟩).1 =
        [.SingleLineCommand "client-pf 0\n[CLIENTS DROP]\n[SUBNETS ACCEPT]\n[END]\nEND\n"] ∧
      (middleware.handleClientEvent ⟨⟨fun _ => none⟩, ["1.1.1.1/32", "2.2.2.0/24"], []⟩
          ⟨.Connect, 0, 0, []⟩).1 =
        [.SingleLineCommand
          "client-pf 0\n[CLIENTS DROP]\n[SUBNETS ACCEPT]\n+1.1.1.1/32\n+2.2.2.0/24\n[END]\nEND\n"] ∧
      (middleware.handleClientEvent ⟨⟨fun _ => none⟩, [], ["1.1.1.1/32", "2.2.2.0/24"]⟩
          ⟨.Connect, 0, 0, []⟩).1 =
        [.SingleLineCommand
          "client-pf 0\n[CLIENTS DROP]\n[SUBNETS ACCEPT]\n-1.1.1.1/32\n-2.2.2.0/24\n[END]\nEND\n"] ∧
      (middleware.handleClientEvent
          ⟨⟨fun _ => none⟩, ["1.1.1.1/32", "2.2.2.0/24"], ["3.3.3.3/32", "4.4.4.0/24"]⟩
          ⟨.Connect, 0, 0, []⟩).1 =
        [.SingleLineCommand ("client-pf 0\n[CLIENTS DROP]\n[SUBNETS ACCEPT]\n" ++
          "+1.1.1.1/32\n+2.2.2.0/24\n-3.3.3.3/32\n-4.4.4.0/24\n[END]\nEND\n")] := by
  decide

/-- Claim C1: for every client id and every two lists of subnets in CIDR notation, the text
`filterSubnets` hands to the command writer is the skeleton opening, one `+` line per
allow entry in order, one `-` line per block entry in order, and the closing
markers; for two empty lists it is the bare skeleton. -/
theorem filterSubnets_text (w : CommandWriter) (n : Int) (allow block : List String)
    (ha : ∀ a ∈ allow, ∀ c ∈ a.data, isCIDRChar c = true)
    (hb : ∀ b ∈ block, ∀ c ∈ b.data, isCIDRChar c = true) :
    (filterSubnets w n allow block).1.map Command.text =
        ["client-pf " ++ toString n ++ "\n[CLIENTS DROP]\n[SUBNETS ACCEPT]\n" ++
          String.join (allow.map fun a => "+" ++ a ++ "\n") ++
          String.join (block.map fun b => "-" ++ b ++ "\n") ++ "[END]\nEND\n"] ∧
      (filterSubnets w n [] []).1.map Command.text =
        ["client-pf " ++ toString n ++ "\n[CLIENTS DROP]\n[SUBNETS ACCEPT]\n[END]\nEND\n"] := by
  have key : ∀ (al bl : List String), (∀ a ∈ al, ∀ c ∈ a.data, isCIDRChar c = true) →
      (∀ b ∈ bl, ∀ c ∈ b.data, isCIDRChar c = true) →
      (filterSubnets w n al bl).1.map Command.text =
        ["client-pf " ++ toString n ++ "\n[CLIENTS DROP]\n[SUBNETS ACCEPT]\n" ++
          String.join (al.map fun a => "+" ++ a ++ "\n") ++
          String.join (bl.map fun b => "-" ++ b ++ "\n") ++ "[END]\nEND\n"] := by
    intro al bl hal hbl
    unfold filterSubnets
    rw [executeTemplate_filterLAN, htmlEscaper_id _ (intToString_safe n),
      map_escaped "\n+" al hal, map_escaped "\n-" bl hbl]
    simp only [List.map_cons, List.map_nil, Command.text, List.cons.injEq, and_true]
    apply String.ext
    have e1 := shift_newline "+" al
      ((String.join (bl.map fun b => "-" ++ b ++ "\n")).data ++ "[END]\nEND\n".data)
    have e2 := shift_newline "-" bl "[END]\nEND\n".data
    have s1 : (fun e : String => "\n+" ++ e) = (fun e => "\n" ++ "+" ++ e) := rfl
    have s2 : (fun e : String => "\n-" ++ e) = (fun e => "\n" ++ "-" ++ e) := rfl
    have t1 : "\n[END]\nEND\n".data = '\n' :: "[END]\nEND\n".data := rfl
    have t2 : "\n[CLIENTS DROP]\n[SUBNETS ACCEPT]\n".data =
        "\n[CLIENTS DROP]\n[SUBNETS ACCEPT]".data ++ ['\n'] := rfl
    simp only [String.data_append, List.append_assoc, s1, s2, t1, t2]
    simp only [List.cons_append, List.nil_append] at e1 e2 ⊢
    rw [e2, e1]
  refine ⟨key allow block ha hb, ?_⟩
  have h0 := key [] [] (by simp) (by simp)
  rw [h0]
  simp [join_nil, String.ext_iff]

/-- Witness for claim C1: client 0 with the lists of the repository's test. -/
theorem filterSubnets_text_witness :
    (filterSubnets ⟨fun _ => none⟩ 0 ["1.1.1.1/32", "2.2.2.0/24"]
        ["3.3.3.3/32", "4.4.4.0/24"]).1.map Command.text =
        ["client-pf " ++ toString (0 : Int) ++ "\n[CLIENTS DROP]\n[SUBNETS ACCEPT]\n" ++
          String.join (["1.1.1.1/32", "2.2.2.0/24"].map fun a => "+" ++ a ++ "\n") ++
          String.join (["3.3.3.3/32", "4.4.4.0/24"].map fun b => "-" ++ b ++ "\n") ++
          "[END]\nEND\n"] ∧
      (filterSubnets ⟨fun _ => none⟩ 0 [] []).1.map Command.text =
        ["client-pf " ++ toString (0 : Int) ++
          "\n[CLIENTS DROP]\n[SUBNETS ACCEPT]\n[END]\nEND\n"] :=
  filterSubnets_text ⟨fun _ => none⟩ 0 ["1.1.1.1/32", "2.2.2.0/24"]
    ["3.3.3.3/32", "4.4.4.0/24"] (by decide) (by decide)

/-- Claim C2: the commands the auth gate issues for an event. For Connect and Reauth it is
exactly one command: the deny for missing credentials when the username or the
password is empty, else the internal-error deny when the validator returns an error,
else the wrong-credentials deny when it returns false, else the accept. For
Established and Disconnect there is no command. The validator is called exactly
when the event is Connect or Reauth and both credentials are non-empty. -/
theorem handleClientEvent_commands (m : Middleware) (event : ClientEvent) :
    commands (m.handleClientEvent event) =
        (match event.EventType with
         | .Connect | .Reauth =>
            if envGet event.Env "username" = "" ∨ envGet event.Env "password" = "" then
              [.ClientDenyWithMessage event.ClientID event.ClientKey
                "missing username or password"]
            else if (m.validator event.ClientID (envGet event.Env "username")
                (envGet event.Env "password")).2 ≠ none then
              [.ClientDenyWithMessage event.ClientID event.ClientKey "internal error"]
            else if (m.validator event.ClientID (envGet event.Env "username")
                (envGet event.Env "password")).1 = false then
              [.ClientDenyWithMessage event.ClientID event.ClientKey
                "wrong username or password"]
            else [.ClientAccept event.ClientID event.ClientKey]
         | _ => []) ∧
      (validatorCalls (m.handleClientEvent event)).length =
        (if (event.EventType = .Connect ∨ event.EventType = .Reauth) ∧
            ¬ (envGet event.Env "username" = "" ∨ envGet event.Env "password" = "")
         then 1 else 0) := by
  obtain ⟨ty, id, key, env⟩ := event
  cases ty <;>
    simp only [Middleware.handleClientEvent, Middleware.authenticateClient] <;>
    (try split_ifs) <;> (try split) <;> (try split) <;>
    simp_all [commands, validatorCalls]

/-- Claim C3 refuted: on a Connect event of client 0 with two empty lists the
emitter issues one call, of the single-line operation, and no call of the multi-line one. -/
theorem handleClientEvent_uses_SingleLineCommand :
    (middleware.handleClientEvent ⟨⟨fun _ => none⟩, [], []⟩ ⟨.Connect, 0, 0, []⟩).1 =
        [.SingleLineCommand "client-pf 0\n[CLIENTS DROP]\n[SUBNETS ACCEPT]\n[END]\nEND\n"] ∧
      (middleware.handleClientEvent ⟨⟨fun _ => none⟩, [], []⟩
        ⟨.Connect, 0, 0, []⟩).1.any Command.isMultiline = false := by
  decide

/-- Claim C3 as amended: on a Connect or Reauth event the emitter issues exactly one call, the
single-line operation carrying the text rendered for the event's client id and the two
lists; on Established and Disconnect it issues none. -/
theorem handleClientEvent_transmits (m : middleware) (event : ClientEvent) :
    ∃ text, executeTemplate filterLAN (filterData event.ClientID m.allow m.block) = some text ∧
      (m.handleClientEvent event).1 =
        (match event.EventType with
         | .Connect | .Reauth => [.SingleLineCommand text]
         | _ => []) := by
  refine ⟨_, executeTemplate_filterLAN _ _ _, ?_⟩
  obtain ⟨ty, id, key, env⟩ := event
  cases ty <;> simp only [middleware.handleClientEvent, filterSubnets,
    executeTemplate_filterLAN] <;> (try split) <;> rfl

/-- Claim C4 refuted: two Connect events that differ only in the client key lead to
the same validator call, whose arguments are the client id, the username and the
password; the key is not passed. -/
theorem validator_call_ignores_key :
    validatorCalls (Middleware.handleClientEvent ⟨fun _ _ _ => (true, none), fun _ => none⟩
        ⟨.Connect, 1, 7, [("username", "alice"), ("password", "secret")]⟩) =
        [(1, "alice", "secret")] ∧
      validatorCalls (Middleware.handleClientEvent ⟨fun _ _ _ => (true, none), fun _ => none⟩
        ⟨.Connect, 1, 8, [("username", "alice"), ("password", "secret")]⟩) =
        [(1, "alice", "secret")] := by
  decide

/-- Claim C4 as amended: for a Connect or Reauth event with non-empty username and password the
validator is called exactly once, with the event's client id, the username and the
password, and the call is the same whatever the client key. -/
theorem validator_called_once (m : Middleware) (event : ClientEvent)
    (ht : event.EventType = .Connect ∨ event.EventType = .Reauth)
    (hu : envGet event.Env "username" ≠ "") (hp : envGet event.Env "password" ≠ "") :
    validatorCalls (m.handleClientEvent event) =
        [(event.ClientID, envGet event.Env "username", envGet event.Env "password")] ∧
      ∀ key : Int, validatorCalls (m.handleClientEvent { event with ClientKey := key }) =
        validatorCalls (m.handleClientEvent event) := by
  have key : ∀ k : Int, validatorCalls (m.handleClientEvent { event with ClientKey := k }) =
      [(event.ClientID, envGet event.Env "username", envGet event.Env "password")] := by
    intro k
    obtain ⟨ty, id, key, env⟩ := event
    rcases ht with ht | ht <;> simp only at ht <;> subst ht <;>
      simp only [Middleware.handleClientEvent, Middleware.authenticateClient] <;>
      (try split_ifs) <;> (try split) <;> (try split) <;>
      simp_all [validatorCalls]
  refine ⟨key event.ClientKey, fun k => ?_⟩
  rw [key k, key event.ClientKey]

/-- Witness for claim C4 as amended: a Connect event of client 1 with key 7. -/
theorem validator_called_once_witness :
    validatorCalls (Middleware.handleClientEvent ⟨fun _ _ _ => (true, none), fun _ => none⟩
        ⟨.Connect, 1, 7, [("username", "alice"), ("password", "secret")]⟩) =
        [((1 : Int), envGet [("username", "alice"), ("password", "secret")] "username",
          envGet [("username", "alice"), ("password", "secret")] "password")] ∧
      ∀ key : Int, validatorCalls
          (Middleware.handleClientEvent ⟨fun _ _ _ => (true, none), fun _ => none⟩
            { (⟨.Connect, 1, 7, [("username", "alice"), ("password", "secret")]⟩ : ClientEvent)
              with ClientKey := key }) =
        validatorCalls (Middleware.handleClientEvent ⟨fun _ _ _ => (true, none), fun _ => none⟩
          ⟨.Connect, 1, 7, [("username", "alice"), ("password", "secret")]⟩) :=
  validator_called_once ⟨fun _ _ _ => (true, none), fun _ => none⟩
    ⟨.Connect, 1, 7, [("username", "alice"), ("password", "secret")]⟩
    (Or.inl rfl) (by decide) (by decide)

/-- Claim C5 refuted: with a factory that puts the binary name before the arguments,
`Start` on the empty argument vector returns nil and launches the process and the
background tasks. -/
theorem Start_empty_arguments_launches :
    CmdWrapper.Start (fun args => ⟨"openvpn" :: args, none, none, none⟩) [] =
      ([.log .Info, .goOutputToLog "Stdout:", .goOutputToLog "Stderr:", .cmdStart,
        .goWaitForExit, .waiterAdd, .goWaitForShutdown], none) := by
  decide

/-- Claim C5 as amended: when the command the factory builds from the arguments has an empty
`Args`, `Start` returns the error and launches nothing. -/
theorem Start_empty_command (command : CommandFunc) (arguments : List String)
    (h : (command arguments).Args = []) :
    (CmdWrapper.Start command arguments).2 = some "nothing to execute for an empty command" ∧
      (CmdWrapper.Start command arguments).1.any StartEffect.launches = false ∧
      (CmdWrapper.Start command arguments).1 = [] := by
  simp [CmdWrapper.Start, h]

/-- Witness for claim C5 as amended: the factory that takes the arguments themselves as
the command, on the empty argument vector. -/
theorem Start_empty_command_witness :
    (CmdWrapper.Start (fun args => ⟨args, none, none, none⟩) []).2 =
        some "nothing to execute for an empty command" ∧
      (CmdWrapper.Start (fun args => ⟨args, none, none, none⟩) []).1.any
        StartEffect.launches = false ∧
      (CmdWrapper.Start (fun args => ⟨args, none, none, none⟩) []).1 = [] :=
  Start_empty_command (fun args => ⟨args, none, none, none⟩) [] rfl

/-- Claim C6, the code at the failing input: every step before the `select` succeeds and the
timer fires. `Start` returns the timeout error, and among its calls there is no stop
of the process, of the management channel or of the tunnel. -/
theorem Start_timeout_no_teardown :
    (OpenvpnProcess.Start
        { Setup := none, WaitForConnection := none, ToArguments := (["--dev", "tun"], none)
          command := fun args => ⟨"openvpn" :: args, none, none, none⟩
          select := .After }).2 = some "management connection wait timeout" ∧
      (OpenvpnProcess.Start
        { Setup := none, WaitForConnection := none, ToArguments := (["--dev", "tun"], none)
          command := fun args => ⟨"openvpn" :: args, none, none, none⟩
          select := .After }).1.all
        (fun e => e ≠ .cmdStop ∧ e ≠ .managementStop ∧ e ≠ .tunnelStop) = true ∧
      ProcessEffect.cmd .cmdStart ∈ (OpenvpnProcess.Start
        { Setup := none, WaitForConnection := none, ToArguments := (["--dev", "tun"], none)
          command := fun args => ⟨"openvpn" :: args, none, none, none⟩
          select := .After }).1 := by
  decide

/-- Claim C7: when the `select` is reached and the process-exit case fires, `Start` does not
return nil; it returns the exit error when that is non-nil and the died-too-early
error otherwise; and its last two calls are the stop of the management channel and
then the stop of the tunnel. -/
theorem Start_process_exit (env : StartEnv) (exitError : GoError)
    (h1 : env.Setup = none) (h2 : env.WaitForConnection = none)
    (h3 : env.ToArguments.2 = none)
    (h4 : (CmdWrapper.Start env.command env.ToArguments.1).2 = none)
    (h5 : env.select = .CmdExitError exitError) :
    (OpenvpnProcess.Start env).2 ≠ none ∧
      (OpenvpnProcess.Start env).2 =
        (match exitError with
         | some err => some err
         | none => some "openvpn process died too early") ∧
      ∃ pre, (OpenvpnProcess.Start env).1 = pre ++ [.managementStop, .tunnelStop] ∧
        ProcessEffect.managementStop ∉ pre ∧ ProcessEffect.tunnelStop ∉ pre := by
  refine ⟨?_, ?_,
    [.tunnelSetup, .managementWaitForConnection, .setManagementAddress, .toArguments] ++
      (CmdWrapper.Start env.command env.ToArguments.1).1.map ProcessEffect.cmd, ?_, ?_, ?_⟩ <;>
    cases exitError <;> simp [OpenvpnProcess.Start, h1, h2, h3, h4, h5]

/-- Witness for claim C7: the process dies with an error before the
management connection is accepted. -/
theorem Start_process_exit_witness :
    (OpenvpnProcess.Start
        { Setup := none, WaitForConnection := none, ToArguments := (["--dev", "tun"], none)
          command := fun args => ⟨"openvpn" :: args, none, none, none⟩
          select := .CmdExitError (some "exit status 1") }).2 ≠ none :=
  (Start_process_exit
    { Setup := none, WaitForConnection := none, ToArguments := (["--dev", "tun"], none)
      command := fun args => ⟨"openvpn" :: args, none, none, none⟩
      select := .CmdExitError (some "exit status 1") }
    (some "exit status 1") rfl rfl rfl (by decide) rfl).1

/-! ## The invariant of the supervisor -/

theorem inv_started : Inv started := by
  constructor <;> simp [started, NewCmdWrapper, ExitInv, ShutdownInv]

theorem inv_stepProcessExit (err : GoError) (s s' : System) (hi : Inv s)
    (h : stepProcessExit err s = some s') : Inv s' := by
  obtain ⟨hf, hc, he, ht, hs⟩ := hi
  unfold stepProcessExit at h
  split at h
  · rename_i hp
    injection h with h
    subst h
    refine ⟨hf, hc, ?_, ht, ?_⟩
    · revert he
      cases hpc : s.waitForExit <;> simp_all [ExitInv]
    · revert hs
      cases hpc : s.waitForShutdown <;> simp_all [ShutdownInv]
  · cases h

theorem exitInv_done (s : System) :
    ExitInv s .done ↔
      (s.cw.CmdExitError.closed = true ∧ s.closes = 1 ∧
        ∃ e, s.process = some e ∧ s.sent = [e] ∧
          ((s.cw.CmdExitError.buf = [e] ∧ s.received = []) ∨
            (s.cw.CmdExitError.buf = [] ∧ ∃ w rest, s.received = ⟨w, e, true⟩ :: rest ∧
              ∀ r ∈ rest, r.val = none ∧ r.ok = false))) :=
  Iff.rfl

theorem inv_stepWaitForExit (s s' : System) (hi : Inv s)
    (h : stepWaitForExit s = some s') : Inv s' := by
  obtain ⟨hf, hc, he, ht, hs⟩ := hi
  unfold stepWaitForExit at h
  split at h
  · -- err := cmd.Wait()
    rename_i hpc
    split at h
    · rename_i err hp
      injection h with h
      subst h
      rw [hpc] at he
      refine ⟨hf, hc, ?_, ht, ?_⟩
      · simp_all [ExitInv]
      · revert hs
        cases hq : s.waitForShutdown <;> simp_all [ShutdownInv]
    · cases h
  · -- cw.CmdExitError <- err
    rename_i err hpc
    rw [hpc] at he
    obtain ⟨hp, hb, hcl, hsent, hcls, hr⟩ := he
    simp only [hcl, hb, hc, List.length_nil, Nat.lt_one_iff, if_true, Bool.false_eq_true,
      if_false] at h
    injection h with h
    subst h
    refine ⟨hf, rfl, ?_, ht, ?_⟩
    · simp_all [ExitInv]
    · revert hs
      cases hq : s.waitForShutdown <;> simp_all [ShutdownInv]
  · -- close(cw.CmdExitError)
    rename_i hpc
    rw [hpc] at he
    obtain ⟨hcl, hcls, e, hp, hsent, hbr⟩ := he
    simp only [hcl, Bool.false_eq_true, if_false] at h
    injection h with h
    subst h
    refine ⟨hf, hc, ?_, ht, ?_⟩
    · refine (exitInv_done _).2 ⟨rfl, by simp [hcls], e, hp, hsent, ?_⟩
      rcases hbr with ⟨hb, hr⟩ | ⟨hb, w, hr⟩
      · exact Or.inl ⟨hb, hr⟩
      · exact Or.inr ⟨hb, w, [], hr, by simp⟩
    · revert hs
      cases hq : s.waitForShutdown <;> simp_all [ShutdownInv]
  · cases h

/-- What a receive does to the exit-side invariant. -/
theorem exitInv_recv (s : System) (v : GoError) (ok : Bool) (c : Chan) (who : Receiver)
    (he : ExitInv s s.waitForExit) (hr : s.cw.CmdExitError.recv = some (v, ok, c)) :
    c.cap = s.cw.CmdExitError.cap ∧
    ∀ s' : System, s'.cw.CmdExitError = c → s'.process = s.process → s'.sent = s.sent →
      s'.closes = s.closes → s'.received = s.received ++ [⟨who, v, ok⟩] →
      s'.waitForExit = s.waitForExit → ExitInv s' s'.waitForExit := by
  unfold Chan.recv at hr
  split at hr
  · rename_i v0 rest hb
    injection hr with hr
    simp only [Prod.mk.injEq] at hr
    obtain ⟨rfl, rfl, rfl⟩ := hr
    refine ⟨rfl, ?_⟩
    intro s' h1 h2 h3 h4 h5 h6
    rw [h6]
    revert he
    cases hpc : s.waitForExit <;> simp only [ExitInv] <;> intro he
    · simp_all
    · simp_all
    · obtain ⟨hcl, hcls, e, hp, hsent, hbr⟩ := he
      rcases hbr with ⟨hb', hr'⟩ | ⟨hb', _⟩
      · rw [hb] at hb'
        simp only [List.cons.injEq] at hb'
        obtain ⟨rfl, rfl⟩ := hb'
        refine ⟨by simp [h1, hcl], by omega, v0, by rw [h2, hp], by rw [h3, hsent], ?_⟩
        exact Or.inr ⟨by simp [h1], who, by simp [h5, hr']⟩
      · rw [hb] at hb'; cases hb'
    · obtain ⟨hcl, hcls, e, hp, hsent, hbr⟩ := he
      rcases hbr with ⟨hb', hr'⟩ | ⟨hb', _⟩
      · rw [hb] at hb'
        simp only [List.cons.injEq] at hb'
        obtain ⟨rfl, rfl⟩ := hb'
        refine ⟨by simp [h1, hcl], by omega, v0, by rw [h2, hp], by rw [h3, hsent], ?_⟩
        exact Or.inr ⟨by simp [h1], who, [], by simp [h5, hr'], by simp⟩
      · rw [hb] at hb'; cases hb'
  · rename_i hb
    split at hr
    · rename_i hcl
      injection hr with hr
      simp only [Prod.mk.injEq] at hr
      obtain ⟨rfl, rfl, rfl⟩ := hr
      refine ⟨rfl, ?_⟩
      intro s' h1 h2 h3 h4 h5 h6
      rw [h6]
      revert he
      cases hpc : s.waitForExit <;> simp only [ExitInv] <;> intro he
      · simp_all
      · simp_all
      · simp_all
      · obtain ⟨_, hcls, e, hp, hsent, hbr⟩ := he
        rcases hbr with ⟨hb', _⟩ | ⟨_, w, rest, hr', hz⟩
        · rw [hb] at hb'; cases hb'
        · refine ⟨by rw [h1, hcl], by omega, e, by rw [h2, hp], by rw [h3, hsent], ?_⟩
          refine Or.inr ⟨by rw [h1, hb], w, rest ++ [⟨who, none, false⟩], by simp [h5, hr'], ?_⟩
          intro r hr
          rcases List.mem_append.1 hr with hr | hr
          · exact hz r hr
          · simp only [List.mem_singleton] at hr
            subst hr
            exact ⟨rfl, rfl⟩
    · cases hr

theorem inv_stepRecv (who : Receiver) (s s' : System) (hi : Inv s)
    (h : stepRecv who s = some s') : Inv s' := by
  obtain ⟨hf, hc, he, ht, hs⟩ := hi
  have hw : who ≠ Receiver.waitForShutdown := by
    intro hw
    subst hw
    simp [stepRecv] at h
  have h' : (match s.cw.CmdExitError.recv with
      | some (v, ok, c) =>
          some { s with
            cw := { s.cw with CmdExitError := c }
            received := s.received ++ [{ who := who, val := v, ok := ok }] }
      | none => none) = some s' := by
    cases who <;> first | exact absurd rfl hw | exact h
  clear h
  split at h'
  · rename_i v ok c hr
    injection h' with h'
    subst h'
    obtain ⟨hcap, hex⟩ := exitInv_recv s v ok c who he hr
    refine ⟨hf, by simpa [hcap] using hc, hex _ rfl rfl rfl rfl rfl rfl, ht, ?_⟩
    revert hs
    cases hq : s.waitForShutdown <;> simp only [ShutdownInv] <;> intro hs
    · exact ⟨hs.1, hs.2.1, by
        intro r hr; rcases List.mem_append.1 hr with hr | hr
        · exact hs.2.2 r hr
        · simp only [List.mem_singleton] at hr; subst hr; exact hw⟩
    · exact ⟨hs.1, hs.2.1, hs.2.2.1, by
        intro r hr; rcases List.mem_append.1 hr with hr | hr
        · exact hs.2.2.2 r hr
        · simp only [List.mem_singleton] at hr; subst hr; exact hw⟩
    · exact ⟨hs.1, hs.2.1, hs.2.2.1, by
        intro r hr; rcases List.mem_append.1 hr with hr | hr
        · exact hs.2.2.2 r hr
        · simp only [List.mem_singleton] at hr; subst hr; exact hw⟩
    · obtain ⟨a, b, c', r, hr, hrw⟩ := hs
      exact ⟨a, b, c', r, List.mem_append_left _ hr, hrw⟩
    · obtain ⟨a, b, c', r, hr, hrw⟩ := hs
      exact ⟨a, b, c', r, List.mem_append_left _ hr, hrw⟩
  · cases h'

theorem inv_stepWaitForShutdown (s s' : System) (hi : Inv s)
    (h : stepWaitForShutdown s = some s') : Inv s' := by
  obtain ⟨hf, hc, he, ht, hs⟩ := hi
  unfold stepWaitForShutdown at h
  split at h
  · -- <-cw.cmdShutdownStarted
    rename_i hq
    rw [hq] at hs
    split at h
    · rename_i htr
      injection h with h
      subst h
      refine ⟨hf, hc, ?_, ht, ?_⟩
      · revert he
        cases hpc : s.waitForExit <;> simp_all [ExitInv]
      · simp_all [ShutdownInv]
    · cases h
  · -- cmd.Process.Signal(exitSignal)
    rename_i hq
    rw [hq] at hs
    injection h with h
    subst h
    refine ⟨hf, hc, ?_, ht, ?_⟩
    · revert he
      cases hpc : s.waitForExit <;> simp_all [ExitInv]
    · simp_all [ShutdownInv]
  · -- <-cw.CmdExitError
    rename_i hq
    rw [hq] at hs
    split at h
    · rename_i v ok c hr
      injection h with h
      subst h
      obtain ⟨hcap, hex⟩ := exitInv_recv s v ok c Receiver.waitForShutdown he hr
      refine ⟨hf, by simpa [hcap] using hc, hex _ rfl rfl rfl rfl rfl rfl, ht, ?_⟩
      simp only [ShutdownInv] at hs ⊢
      exact ⟨hs.1, hs.2.1, hs.2.2.1, ⟨_, List.mem_append_right _ (List.mem_singleton_self _), rfl⟩⟩
    · cases h
  · -- cw.cmdShutdownWaiter.Done()
    rename_i hq
    rw [hq] at hs
    simp only [ShutdownInv] at hs
    obtain ⟨h1, h2, h3, h4⟩ := hs
    simp only [h3, one_ne_zero, if_false] at h
    injection h with h
    subst h
    refine ⟨hf, hc, ?_, ht, ?_⟩
    · revert he
      cases hpc : s.waitForExit <;> simp_all [ExitInv]
    · simp only [ShutdownInv]
      exact ⟨h1, h2, by simp, h4⟩
  · cases h

theorem inv_stepStopOnce (s s' : System) (hi : Inv s)
    (h : stepStopOnce s = some s') : Inv s' := by
  obtain ⟨hf, hc, he, ht, hs⟩ := hi
  unfold stepStopOnce at h
  split at h
  · rename_i ho
    injection h with h
    subst h
    refine ⟨hf, hc, ?_, ht, ?_⟩
    · revert he
      cases hpc : s.waitForExit <;> simp_all [ExitInv]
    · revert hs
      cases hq : s.waitForShutdown <;> simp_all [ShutdownInv]
  · rename_i ho
    have htr : s.cw.cmdShutdownStarted = false := by
      rw [ht.1]; simpa using ho
    simp only [htr, Bool.false_eq_true, if_false] at h
    injection h with h
    subst h
    refine ⟨hf, hc, ?_, ?_, ?_⟩
    · revert he
      cases hpc : s.waitForExit <;> simp_all [ExitInv]
    · simp_all
    · revert hs
      cases hq : s.waitForShutdown <;> simp_all [ShutdownInv]

theorem inv_stepStopReturn (s s' : System) (hi : Inv s)
    (h : stepStopReturn s = some s') : Inv s' := by
  obtain ⟨hf, hc, he, ht, hs⟩ := hi
  unfold stepStopReturn at h
  split at h
  · injection h with h
    subst h
    refine ⟨hf, hc, ?_, ht, ?_⟩
    · revert he
      cases hpc : s.waitForExit <;> simp_all [ExitInv]
    · revert hs
      cases hq : s.waitForShutdown <;> simp_all [ShutdownInv]
  · cases h

theorem inv_step (l : Step) (s s' : System) (hi : Inv s) (h : step l s = some s') : Inv s' := by
  unfold step at h
  split at h
  · cases h
  · cases l with
    | processExit err => exact inv_stepProcessExit err s s' hi h
    | waitForExit => exact inv_stepWaitForExit s s' hi h
    | waitForShutdown => exact inv_stepWaitForShutdown s s' hi h
    | recv who => exact inv_stepRecv who s s' hi h
    | stopOnce => exact inv_stepStopOnce s s' hi h
    | stopReturn => exact inv_stepStopReturn s s' hi h

theorem inv_run (ls : List Step) : ∀ (s s' : System), Inv s → run ls s = some s' → Inv s' := by
  induction ls with
  | nil =>
    intro s s' hi h
    simp only [run, Option.some.injEq] at h
    exact h ▸ hi
  | cons l ls ih =>
    intro s s' hi h
    simp only [run] at h
    cases hstep : step l s with
    | none => simp [hstep] at h
    | some s1 =>
      rw [hstep] at h
      exact ih s1 s' (inv_step l s s1 hi hstep) h

theorem inv_reachable (ls : List Step) (s : System) (h : run ls started = some s) : Inv s :=
  inv_run ls started s inv_started h

/-! ## The exit-error slot, `Wait` and `Stop` -/

/-- Claim C8 refuted: the process exits cleanly, `waitForExit` sends the result, and
`Wait` receives it. One receive is then complete, the channel is not yet closed, and a
second receive cannot execute: it blocks until `waitForExit` has closed the channel. -/
theorem second_receive_blocks_before_close :
    (run [.processExit none, .waitForExit, .waitForExit, .recv .Wait] started).map
        (fun s => (s.received.length, s.cw.CmdExitError.closed, s.waitForExit,
          (step (.recv .Wait) s).isSome)) =
      some (1, false, ExitPC.close, false) := by
  decide

/-- Claim C8 as amended: in every state a started wrapper can reach, no panic has happened; at
most one value has been sent on `CmdExitError`, and it is the result of the OS wait; the
channel has been closed at most once, and when it is closed exactly one value has been
sent; the send and the close of `waitForExit` can always execute when it is their turn;
the first completed receive got the value sent and every later one the zero value of the
closed channel; once the channel is closed a receive always executes; and while a first
receive is done and the channel is still open, the next statement of `waitForExit` is
the close. -/
theorem exit_slot_single_value (ls : List Step) (s : System)
    (hrun : run ls started = some s) :
    s.fault = false ∧ s.cw.CmdExitError.cap = 1 ∧
      s.sent.length ≤ 1 ∧ s.closes ≤ 1 ∧ (∀ e ∈ s.sent, s.process = some e) ∧
      (s.cw.CmdExitError.closed = true →
        s.sent.length = 1 ∧ s.closes = 1 ∧ s.waitForExit = .done) ∧
      (∀ e, s.waitForExit = .send e →
        ∃ s1, step .waitForExit s = some s1 ∧ s1.sent = [e] ∧ s1.waitForExit = .close ∧
          s1.fault = false) ∧
      (s.waitForExit = .close →
        ∃ s1, step .waitForExit s = some s1 ∧ s1.cw.CmdExitError.closed = true ∧
          s1.closes = 1 ∧ s1.fault = false) ∧
      (∀ r ∈ s.received.head?, r.ok = true ∧ s.sent = [r.val]) ∧
      (∀ r ∈ s.received.tail, r.val = none ∧ r.ok = false) ∧
      (s.cw.CmdExitError.closed = true →
        (step (.recv .Wait) s).isSome = true ∧ (step (.recv .Start) s).isSome = true) ∧
      (s.received ≠ [] → s.cw.CmdExitError.closed = false → s.waitForExit = .close) := by
  obtain ⟨hf, hc, he, _, _⟩ := inv_reachable ls s hrun
  refine ⟨hf, hc, ?_⟩
  cases hpc : s.waitForExit with
  | osWait =>
    rw [hpc] at he
    obtain ⟨hb, hcl, hsent, hcls, hr⟩ := he
    simp [hb, hcl, hsent, hcls, hr]
  | send e =>
    rw [hpc] at he
    obtain ⟨hp, hb, hcl, hsent, hcls, hr⟩ := he
    simp [hb, hcl, hsent, hcls, hr, step, stepWaitForExit, hpc, hf, hc]
  | close =>
    rw [hpc] at he
    obtain ⟨hcl, hcls, e, hp, hsent, hbr⟩ := he
    rcases hbr with ⟨hb, hr⟩ | ⟨hb, w, hr⟩ <;>
      simp [hb, hcl, hsent, hcls, hr, hp, step, stepWaitForExit, hpc, hf]
  | done =>
    rw [hpc] at he
    obtain ⟨hcl, hcls, e, hp, hsent, hbr⟩ := (exitInv_done s).1 he
    rcases hbr with ⟨hb, hr⟩ | ⟨hb, w, rest, hr, hz⟩
    · simp [hb, hcl, hsent, hcls, hr, hp, step, stepRecv, Chan.recv, hf]
    · simp only [hr, List.tail_cons, List.head?_cons]
      simp [hb, hcl, hsent, hcls, hp, step, stepRecv, Chan.recv, hf]
      exact hz

/-- Witness for claim C8 as amended: the process exits with an error, `waitForExit`
sends and closes, and `Wait` receives twice, first the error and then the zero value. -/
theorem exit_slot_single_value_witness :
    run [.processExit (some "exit status 1"), .waitForExit, .waitForExit, .waitForExit,
        .recv .Wait, .recv .Wait] started = some exitedAndReceivedTwice ∧
      exitedAndReceivedTwice.sent.length ≤ 1 ∧ exitedAndReceivedTwice.closes ≤ 1 ∧
      (∀ r ∈ exitedAndReceivedTwice.received.tail, r.val = none ∧ r.ok = false) :=
  ⟨by decide,
    (exit_slot_single_value
      [.processExit (some "exit status 1"), .waitForExit, .waitForExit, .waitForExit,
        .recv .Wait, .recv .Wait] exitedAndReceivedTwice (by decide)).2.2.1,
    (exit_slot_single_value
      [.processExit (some "exit status 1"), .waitForExit, .waitForExit, .waitForExit,
        .recv .Wait, .recv .Wait] exitedAndReceivedTwice (by decide)).2.2.2.1,
    (exit_slot_single_value
      [.processExit (some "exit status 1"), .waitForExit, .waitForExit, .waitForExit,
        .recv .Wait, .recv .Wait] exitedAndReceivedTwice (by decide)).2.2.2.2.2.2.2.2.2.1⟩

/-- Claim C9, the code at the failing input. First run: `Stop` is called, the watcher signals,
the process exits with the error of the interrupt, `waitForExit` sends it, the watcher
receives it, `waitForExit` closes, and then `Wait` receives: it returns nil although the
process exited with an error. Second run: the `select` of `OpenvpnProcess.Start`
receives the exit error, and the `Wait` that follows returns nil. -/
theorem Wait_returns_nil_after_other_receiver :
    (run [.stopOnce, .waitForShutdown, .waitForShutdown,
        .processExit (some "signal: interrupt"), .waitForExit, .waitForExit,
        .waitForShutdown, .waitForExit, .recv .Wait] started).map
        (fun s => (s.process, lastReceived .waitForShutdown s, lastReceived .Wait s)) =
      some (some (some "signal: interrupt"), some (some "signal: interrupt"), some none) ∧
    (run [.processExit (some "exit status 1"), .waitForExit, .waitForExit, .recv .Start,
        .waitForExit, .recv .Wait] started).map
        (fun s => (s.process, lastReceived .Start s, lastReceived .Wait s)) =
      some (some (some "exit status 1"), some (some "exit status 1"), some none) := by
  decide

/-- Repeated complete `Stop` calls, one after the other. -/
theorem run_stopCalls (n : Nat) (s : System) (hf : s.fault = false)
    (ho : s.cw.closesOnce = true) (hw : s.cw.cmdShutdownWaiter = 0) :
    run (List.replicate n stopCall).flatten s = some s := by
  induction n with
  | zero => rfl
  | succ n ih =>
    have h1 : step .stopOnce s = some { s with stopping := s.stopping + 1 } := by
      simp [step, stepStopOnce, hf, ho]
    have h2 : step .stopReturn { s with stopping := s.stopping + 1 } = some s := by
      cases s
      simp_all [step, stepStopReturn]
    simp only [List.replicate_succ, List.flatten_cons, stopCall, List.cons_append,
      List.nil_append, run, h1, Option.some_bind, h2]
    exact ih

/-- Claim C10: in every state a started wrapper can reach, no panic has happened (so no second
close of the shutdown trigger), the trigger has been closed at most once and exactly
once as soon as a `Stop` call is past its first statement, and the watcher has called
`Signal` at most once. When a `Stop` call returns, the watcher has called `Signal`
exactly once and has received from the exit-error channel, the process has exited, and
any number of further complete `Stop` calls leave the state as it is. -/
theorem Stop_idempotent (ls : List Step) (s : System) (hrun : run ls started = some s) :
    s.fault = false ∧ s.triggerCloses ≤ 1 ∧ s.signals ≤ 1 ∧
      (s.cw.closesOnce = true → s.triggerCloses = 1 ∧ s.cw.cmdShutdownStarted = true) ∧
      ∀ s1, step .stopReturn s = some s1 →
        s1.triggerCloses = 1 ∧ s1.signals = 1 ∧ s1.waitForShutdown = .done ∧
          (∃ r ∈ s1.received, r.who = Receiver.waitForShutdown) ∧
          s1.process.isSome = true ∧
          ∀ n, run (List.replicate n stopCall).flatten s1 = some s1 := by
  obtain ⟨hf, hc, he, ht, hs⟩ := inv_reachable ls s hrun
  have hsig : s.signals ≤ 1 := by
    revert hs
    cases hq : s.waitForShutdown <;> simp only [ShutdownInv] <;> intro hs <;> omega
  refine ⟨hf, by rw [ht.2]; split <;> omega, hsig, ?_, ?_⟩
  · intro ho
    exact ⟨by rw [ht.2, if_pos ho], by rw [ht.1, ho]⟩
  · intro s1 hret
    have hret' : stepStopReturn s = some s1 := by
      simpa [step, hf] using hret
    unfold stepStopReturn at hret'
    split at hret'
    · rename_i hcond
      injection hret' with hret'
      subst hret'
      have hw := hcond.2
      have hdone : s.waitForShutdown = .done := by
        revert hs
        cases hq : s.waitForShutdown <;> simp_all [ShutdownInv]
      rw [hdone] at hs
      obtain ⟨ho, hsg, _, r, hr, hrw⟩ := hs
      have hproc : s.process.isSome = true := by
        revert he
        cases hpc : s.waitForExit <;> simp only [ExitInv] <;> intro he
        · rw [he.2.2.2.2] at hr; cases hr
        · rw [he.1]; rfl
        · obtain ⟨_, _, e, hp, _⟩ := he
          rw [hp]; rfl
        · obtain ⟨_, _, e, hp, _⟩ := he
          rw [hp]; rfl
      refine ⟨by rw [ht.2, if_pos ho], hsg, hdone, ⟨r, hr, hrw⟩, hproc, ?_⟩
      intro n
      exact run_stopCalls n _ hf ho hw
    · cases hret'

/-- Witness for claim C10: `Stop` is called, the watcher signals, the process exits, the
watcher observes the exit and finishes; the call returns, and three more complete
calls leave the state as it is. -/
theorem Stop_idempotent_witness :
    run [.stopOnce, .waitForShutdown, .waitForShutdown,
        .processExit (some "signal: interrupt"), .waitForExit, .waitForExit,
        .waitForShutdown, .waitForShutdown] started = some stopAboutToReturn ∧
      step .stopReturn stopAboutToReturn = some { stopAboutToReturn with stopping := 0 } ∧
      run (List.replicate 3 stopCall).flatten { stopAboutToReturn with stopping := 0 } =
        some { stopAboutToReturn with stopping := 0 } :=
  ⟨by decide, by decide,
    ((Stop_idempotent
      [.stopOnce, .waitForShutdown, .waitForShutdown,
        .processExit (some "signal: interrupt"), .waitForExit, .waitForExit,
        .waitForShutdown, .waitForShutdown] stopAboutToReturn (by decide)).2.2.2.2
      { stopAboutToReturn with stopping := 0 } (by decide)).2.2.2.2.2 3⟩

/-! ## The line-consuming middlewares -/

theorem stripLeading_append (p x : List Char) : stripLeading p (p ++ x) = some x := by
  induction p with
  | nil => cases x <;> rfl
  | cons c p ih => simp [stripLeading, ih]

theorem stripLeading_eq_some (p : List Char) :
    ∀ (l r : List Char), stripLeading p l = some r → l = p ++ r := by
  induction p with
  | nil =>
    intro l r h
    cases l <;> simp [stripLeading] at h <;> simp [h]
  | cons c p ih =>
    intro l r h
    cases l with
    | nil => simp [stripLeading] at h
    | cons d l =>
      simp only [stripLeading] at h
      split_ifs at h with hcd
      subst hcd
      simp [ih l r h]

theorem stripLeading_none (marker line : String)
    (h : ∀ rest : String, line ≠ marker ++ rest) : stripLeading marker.data line.data = none := by
  cases hs : stripLeading marker.data line.data with
  | none => rfl
  | some r =>
    exfalso
    apply h (String.mk r)
    apply String.ext
    simp [stripLeading_eq_some _ _ _ hs]

theorem splitComma_append (r s : List Char) (h : ',' ∉ r) :
    splitComma (r ++ ',' :: s) = (r, s) := by
  induction r with
  | nil => simp [splitComma]
  | cons c r ih =>
    have hc : c ≠ ',' := fun e => h (e ▸ List.mem_cons_self _ _)
    have hr : ',' ∉ r := fun e => h (List.mem_cons_of_mem _ e)
    have := ih hr
    simp only [splitComma, Prod.mk.injEq] at this ⊢
    simp [hc, this.1, this.2]

theorem splitComma_fst_no_comma (l : List Char) : ',' ∉ (splitComma l).1 := by
  intro h
  have := List.mem_takeWhile_imp h
  simp at this

theorem parseDigits_isDigit (cs : List Char) :
    ∀ (acc n : Nat), parseDigits acc cs = some n → ∀ c ∈ cs, c.isDigit = true := by
  induction cs with
  | nil => intro _ _ _ c hc; cases hc
  | cons d cs ih =>
    intro acc n h c hc
    simp only [parseDigits] at h
    split_ifs at h with hd
    rcases List.mem_cons.1 hc with rfl | hc
    · exact hd
    · exact ih _ _ h c hc

theorem parseDigits_of_isDigit (cs : List Char) :
    ∀ acc : Nat, (∀ c ∈ cs, c.isDigit = true) → ∃ n, parseDigits acc cs = some n := by
  induction cs with
  | nil => intro acc _; exact ⟨acc, rfl⟩
  | cons d cs ih =>
    intro acc h
    simp only [parseDigits, h d (List.mem_cons_self _ _), if_true]
    exact ih _ (fun c hc => h c (List.mem_cons_of_mem _ hc))

theorem parseUint_eq_some_iff (s : String) : (∃ n, parseUint s.data = some n) ↔ isUintText s := by
  constructor
  · rintro ⟨n, h⟩
    cases hs : s.data with
    | nil => rw [hs] at h; simp [parseUint] at h
    | cons c cs =>
      rw [hs] at h
      refine ⟨by simp [hs], ?_⟩
      rw [hs]
      exact parseDigits_isDigit _ 0 n h
  · rintro ⟨hne, hd⟩
    cases hs : s.data with
    | nil => exact absurd hs hne
    | cons c cs =>
      rw [hs] at hd
      exact parseDigits_of_isDigit _ 0 hd

theorem parseDigits_append_singleton (l : List Char) (c : Char) :
    ∀ acc : Nat, parseDigits acc (l ++ [c]) =
      (parseDigits acc l).bind
        (fun v => if c.isDigit then some (10 * v + (c.toNat - '0'.toNat)) else none) := by
  induction l with
  | nil => intro acc; simp [parseDigits]
  | cons d l ih =>
    intro acc
    simp only [List.cons_append, parseDigits]
    by_cases hd : d.isDigit = true
    · simp only [hd, if_true]
      exact ih _
    · simp [hd]

theorem toDigitsCore_append (fuel : Nat) :
    ∀ (n : Nat) (ds : List Char),
      Nat.toDigitsCore 10 fuel n ds = Nat.toDigitsCore 10 fuel n [] ++ ds := by
  induction fuel with
  | zero => intro n ds; simp [Nat.toDigitsCore]
  | succ f ih =>
    intro n ds
    unfold Nat.toDigitsCore
    dsimp only
    split_ifs
    · rfl
    · rw [ih (n / 10) (Nat.digitChar (n % 10) :: ds), ih (n / 10) [Nat.digitChar (n % 10)]]
      simp

theorem digitChar_value :
    ∀ k, k < 10 → (Nat.digitChar k).isDigit = true ∧ (Nat.digitChar k).toNat - '0'.toNat = k := by
  decide

theorem parseDigits_toDigitsCore (fuel : Nat) :
    ∀ n, n < fuel → parseDigits 0 (Nat.toDigitsCore 10 fuel n []) = some n := by
  induction fuel with
  | zero => intro n h; omega
  | succ f ih =>
    intro n h
    have hk := digitChar_value (n % 10) (Nat.mod_lt _ (by decide))
    unfold Nat.toDigitsCore
    dsimp only
    split_ifs with h0
    · simp only [parseDigits, hk.1, if_true, hk.2]
      congr 1
      omega
    · rw [toDigitsCore_append, parseDigits_append_singleton, ih (n / 10) (by omega)]
      simp only [Option.some_bind, hk.1, if_true, hk.2]
      congr 1
      omega

theorem toDigitsCore_ne_nil (f n : Nat) : Nat.toDigitsCore 10 (f + 1) n [] ≠ [] := by
  unfold Nat.toDigitsCore
  dsimp only
  split_ifs
  · simp
  · rw [toDigitsCore_append]
    simp

theorem parseUint_toString (n : Nat) : parseUint (toString n).data = some n := by
  show parseUint (Nat.repr n).data = some n
  unfold Nat.repr Nat.toDigits
  simp only [List.asString]
  have h := parseDigits_toDigitsCore (n + 1) n (by omega)
  cases hl : Nat.toDigitsCore 10 (n + 1) n [] with
  | nil => exact absurd hl (toDigitsCore_ne_nil n n)
  | cons c cs =>
    rw [hl] at h
    exact h

theorem natToString_no_comma (n : Nat) : ',' ∉ (toString n).data := by
  intro h
  have := (parseUint_eq_some_iff (toString n)).1 ⟨n, parseUint_toString n⟩
  have hd := this.2 ',' h
  revert hd
  decide

/-- The lines of `Test_ConsumeLine` of the Byte Counter: what the model answers on them. -/
theorem test_lines_bytescount :
    bytescount.ConsumeLine ">BYTECOUNT:3018,3264" = ⟨true, none, [(3018, 3264)]⟩ ∧
    bytescount.ConsumeLine ">BYTECOUNT:0,3264" = ⟨true, none, [(0, 3264)]⟩ ∧
    (bytescount.ConsumeLine ">BYTECOUNT:3018,").consumed = true ∧
    (bytescount.ConsumeLine ">BYTECOUNT:3018,").err.isSome = true ∧
    (bytescount.ConsumeLine ">BYTECOUNT:,").err.isSome = true ∧
    bytescount.ConsumeLine "OTHER" = ⟨false, none, []⟩ ∧
    bytescount.ConsumeLine "BYTECOUNT" = ⟨false, none, []⟩ ∧
    bytescount.ConsumeLine "BYTECOUNT:" = ⟨false, none, []⟩ ∧
    bytescount.ConsumeLine "BYTECOUNT:3018,3264" = ⟨false, none, []⟩ ∧
    bytescount.ConsumeLine ">BYTECOUNTT:3018,3264" = ⟨false, none, []⟩ := by
  decide

/-- The lines of `Test_ConsumeLineSkips` and `Test_ConsumeLineTakes` of the State Tracker:
what the model answers on them, with one subscriber. -/
theorem test_lines_state :
    state.ConsumeLine [0] ">STATE:1495493709,AUTH,,,,,," =
      ⟨true, none, [(0, .AuthenticatingState)]⟩ ∧
    state.ConsumeLine [0] ">STATE:1495891020,RECONNECTING,ping-restart,,,,," =
      ⟨true, none, [(0, .ReconnectingState)]⟩ ∧
    state.ConsumeLine [0] ">STATE:1495891025,WAIT,,,,,," =
      ⟨true, none, [(0, .WaitState)]⟩ ∧
    state.ConsumeLine [0] "OTHER" = ⟨false, none, []⟩ ∧
    state.ConsumeLine [0] "STATE" = ⟨false, none, []⟩ := by
  decide

theorem splitComma_snd_of_mem (s : List Char) :
    ∀ r : List Char, ',' ∈ r → ',' ∈ (splitComma (r ++ ',' :: s)).2 := by
  intro r
  induction r with
  | nil => intro h; cases h
  | cons c r ih =>
    intro h
    by_cases hc : c = ','
    · subst hc
      simp [splitComma]
    · have hr : ',' ∈ r := by
        rcases List.mem_cons.1 h with e | e
        · exact absurd e.symm hc
        · exact e
      have := ih hr
      simp only [splitComma] at this ⊢
      simpa [hc] using this

theorem bytescount_marked (rest : List Char) :
    bytescount.ConsumeLine (String.mk (">BYTECOUNT:".data ++ rest)) =
      (match parseUint (splitComma rest).1 with
       | none =>
          { consumed := true
            err := some ("parsing " ++ String.mk (splitComma rest).1 ++ ": invalid syntax")
            recorded := [] }
       | some received =>
          match parseUint (splitComma rest).2 with
          | none =>
              { consumed := true
                err := some ("parsing " ++ String.mk (splitComma rest).2 ++ ": invalid syntax")
                recorded := [] }
          | some sent => { consumed := true, err := none, recorded := [(received, sent)] }) := by
  unfold bytescount.ConsumeLine
  rw [stripLeading_append]

theorem bytescount_line_eq (r s : String) :
    ">BYTECOUNT:" ++ r ++ "," ++ s = String.mk (">BYTECOUNT:".data ++ (r.data ++ ',' :: s.data)) := by
  apply String.ext
  simp [String.data_append]

/-- Claim C11: the Byte Counter's `ConsumeLine` on every line. A line that does not start
with the exact marker is declined without error and nothing is recorded, as are the two
near misses of the test. The line of two numbers `a` and `b` is consumed without error
and the recorder is called exactly once, with received `a` and sent `b`; the same
holds for any two texts of unsigned integers. When either field is empty or
non-numeric the line is consumed with a parse error and the recorder is not called. -/
theorem bytescount_ConsumeLine_behaviour (line r s : String) (a b : Nat) :
    ((∀ rest : String, line ≠ ">BYTECOUNT:" ++ rest) →
        bytescount.ConsumeLine line = ⟨false, none, []⟩) ∧
      bytescount.ConsumeLine "BYTECOUNT:3018,3264" = ⟨false, none, []⟩ ∧
      bytescount.ConsumeLine ">BYTECOUNTT:3018,3264" = ⟨false, none, []⟩ ∧
      bytescount.ConsumeLine (">BYTECOUNT:" ++ toString a ++ "," ++ toString b) =
        ⟨true, none, [(a, b)]⟩ ∧
      (isUintText r → isUintText s →
        ∃ x y, parseUint r.data = some x ∧ parseUint s.data = some y ∧
          bytescount.ConsumeLine (">BYTECOUNT:" ++ r ++ "," ++ s) = ⟨true, none, [(x, y)]⟩) ∧
      (¬ isUintText r ∨ ¬ isUintText s →
        (bytescount.ConsumeLine (">BYTECOUNT:" ++ r ++ "," ++ s)).consumed = true ∧
          (bytescount.ConsumeLine (">BYTECOUNT:" ++ r ++ "," ++ s)).err ≠ none ∧
          (bytescount.ConsumeLine (">BYTECOUNT:" ++ r ++ "," ++ s)).recorded = []) := by
  have good : ∀ (r s : String) (x y : Nat), parseUint r.data = some x →
      parseUint s.data = some y →
      bytescount.ConsumeLine (">BYTECOUNT:" ++ r ++ "," ++ s) = ⟨true, none, [(x, y)]⟩ := by
    intro r s x y hx hy
    have hr : ',' ∉ r.data := by
      intro hm
      have hd := ((parseUint_eq_some_iff r).1 ⟨x, hx⟩).2 ',' hm
      revert hd
      decide
    rw [bytescount_line_eq, bytescount_marked, splitComma_append _ _ hr]
    simp only [hx, hy]
  refine ⟨?_, by decide, by decide, good _ _ a b (parseUint_toString a) (parseUint_toString b),
    ?_, ?_⟩
  · intro h
    unfold bytescount.ConsumeLine
    rw [stripLeading_none _ _ h]
  · intro hr hs
    obtain ⟨x, hx⟩ := (parseUint_eq_some_iff r).2 hr
    obtain ⟨y, hy⟩ := (parseUint_eq_some_iff s).2 hs
    exact ⟨x, y, hx, hy, good r s x y hx hy⟩
  · intro h
    rw [bytescount_line_eq, bytescount_marked]
    cases h1 : parseUint (splitComma (r.data ++ ',' :: s.data)).1 with
    | none => simp
    | some x =>
      cases h2 : parseUint (splitComma (r.data ++ ',' :: s.data)).2 with
      | none => simp
      | some y =>
        exfalso
        by_cases hc : ',' ∈ r.data
        · have hm := splitComma_snd_of_mem s.data r.data hc
          have hu := (parseUint_eq_some_iff
            (String.mk (splitComma (r.data ++ ',' :: s.data)).2)).1 ⟨y, h2⟩
          have hd := hu.2 ',' hm
          revert hd
          decide
        · rw [splitComma_append _ _ hc] at h1 h2
          have hr := (parseUint_eq_some_iff r).1 ⟨x, h1⟩
          have hs := (parseUint_eq_some_iff s).1 ⟨y, h2⟩
          rcases h with h | h
          · exact h hr
          · exact h hs

/-- Witness for claim C11: the line `OTHER`, the numbers 3018 and 3264, and the fields
`3018` and the empty text. -/
theorem bytescount_ConsumeLine_behaviour_witness :
    bytescount.ConsumeLine "OTHER" = ⟨false, none, []⟩ ∧
      bytescount.ConsumeLine (">BYTECOUNT:" ++ toString 3018 ++ "," ++ toString 3264) =
        ⟨true, none, [(3018, 3264)]⟩ ∧
      (bytescount.ConsumeLine (">BYTECOUNT:" ++ "3018" ++ "," ++ "")).consumed = true ∧
      (bytescount.ConsumeLine (">BYTECOUNT:" ++ "3018" ++ "," ++ "")).err ≠ none ∧
      (bytescount.ConsumeLine (">BYTECOUNT:" ++ "3018" ++ "," ++ "")).recorded = [] :=
  ⟨(bytescount_ConsumeLine_behaviour "OTHER" "3018" "" 3018 3264).1
      (by intro rest h; have := congrArg (fun x => x.data.head?) h; revert this; simp),
    (bytescount_ConsumeLine_behaviour "OTHER" "3018" "" 3018 3264).2.2.2.1,
    (bytescount_ConsumeLine_behaviour "OTHER" "3018" "" 3018 3264).2.2.2.2.2
      (Or.inr (by simp [isUintText]))⟩

theorem recognizedStates_lookup :
    ∀ p ∈ recognizedStates, recognizedStates.lookup p.1 = some p.2 ∧ ',' ∉ p.1.data := by
  decide

theorem state_line_eq (t name fields : String) :
    ">STATE:" ++ t ++ "," ++ name ++ "," ++ fields =
      String.mk (">STATE:".data ++ (t.data ++ ',' :: (name.data ++ ',' :: fields.data))) := by
  apply String.ext
  simp [String.data_append]

/-- Claim C12: the State Tracker's `ConsumeLine`. For every name of the recognized
enumeration with its state, every timestamp (a field without a comma, in particular
every number) and every trailing text, the line is consumed without error and every
subscriber is called exactly once, with the state of that name; so `AUTH` gives
`AuthenticatingState`, `RECONNECTING` gives `ReconnectingState` and `WAIT` gives
`WaitState`. Every line that does not start with the marker, such as `OTHER` and
`STATE`, is declined without error and no subscriber is called. -/
theorem state_ConsumeLine_behaviour (subscribers : List Nat) (line t name fields : String)
    (st : State) (n : Nat) :
    ((name, st) ∈ recognizedStates → ',' ∉ t.data →
        state.ConsumeLine subscribers (">STATE:" ++ t ++ "," ++ name ++ "," ++ fields) =
          ⟨true, none, subscribers.map (fun s => (s, st))⟩) ∧
      ((name, st) ∈ recognizedStates →
        state.ConsumeLine subscribers
            (">STATE:" ++ toString n ++ "," ++ name ++ "," ++ fields) =
          ⟨true, none, subscribers.map (fun s => (s, st))⟩) ∧
      state.ConsumeLine subscribers (">STATE:" ++ toString n ++ "," ++ "AUTH" ++ "," ++ fields) =
        ⟨true, none, subscribers.map (fun s => (s, State.AuthenticatingState))⟩ ∧
      state.ConsumeLine subscribers
          (">STATE:" ++ toString n ++ "," ++ "RECONNECTING" ++ "," ++ fields) =
        ⟨true, none, subscribers.map (fun s => (s, State.ReconnectingState))⟩ ∧
      state.ConsumeLine subscribers (">STATE:" ++ toString n ++ "," ++ "WAIT" ++ "," ++ fields) =
        ⟨true, none, subscribers.map (fun s => (s, State.WaitState))⟩ ∧
      ((∀ rest : String, line ≠ ">STATE:" ++ rest) →
        state.ConsumeLine subscribers line = ⟨false, none, []⟩) ∧
      state.ConsumeLine subscribers "OTHER" = ⟨false, none, []⟩ ∧
      state.ConsumeLine subscribers "STATE" = ⟨false, none, []⟩ := by
  have key : ∀ (t name : String) (st : State), (name, st) ∈ recognizedStates →
      ',' ∉ t.data →
      state.ConsumeLine subscribers (">STATE:" ++ t ++ "," ++ name ++ "," ++ fields) =
        ⟨true, none, subscribers.map (fun s => (s, st))⟩ := by
    intro t name st hmem ht
    obtain ⟨hl, hn⟩ := recognizedStates_lookup (name, st) hmem
    rw [state_line_eq]
    unfold state.ConsumeLine
    rw [stripLeading_append]
    simp only [splitComma_append _ _ ht, splitComma_append _ _ hn]
    have hname : String.mk name.data = name := rfl
    rw [hname, hl]
  refine ⟨key t name st, fun h => key _ name st h (natToString_no_comma n),
    key _ _ _ (by decide) (natToString_no_comma n),
    key _ _ _ (by decide) (natToString_no_comma n),
    key _ _ _ (by decide) (natToString_no_comma n), ?_, rfl, rfl⟩
  intro h
  unfold state.ConsumeLine
  rw [stripLeading_none _ _ h]

/-- Witness for claim C12: two subscribers and the line of the test for `AUTH`. -/
theorem state_ConsumeLine_behaviour_witness :
    state.ConsumeLine [1, 2] (">STATE:" ++ "1495493709" ++ "," ++ "AUTH" ++ "," ++ ",,,,,") =
        ⟨true, none, [1, 2].map (fun s => (s, State.AuthenticatingState))⟩ ∧
      state.ConsumeLine [1, 2] "OTHER" = ⟨false, none, []⟩ :=
  ⟨(state_ConsumeLine_behaviour [1, 2] "OTHER" "1495493709" "AUTH" ",,,,," 
      State.AuthenticatingState 0).1 (by decide) (by decide),
    (state_ConsumeLine_behaviour [1, 2] "OTHER" "1495493709" "AUTH" ",,,,,"
      State.AuthenticatingState 0).2.2.2.2.2.1
      (by intro rest h; have := congrArg (fun x => x.data.head?) h; revert this; simp)⟩

/-! ## HTML escaping of the subnet entries -/

theorem htmlEscaper_data_cons (c : Char) (l : List Char) :
    (htmlEscaper (String.mk (c :: l))).data =
      ((htmlReplacement c).getD (String.singleton c)).data ++ (htmlEscaper (String.mk l)).data := by
  simp [htmlEscaper, join_cons, String.data_append]

theorem htmlReplacement_of_not_special (c : Char) (h : isHtmlSpecial c = false) :
    htmlReplacement c = none := by
  simp only [isHtmlSpecial, Bool.or_eq_false_iff, beq_eq_false_iff_ne, ne_eq] at h
  obtain ⟨⟨⟨⟨⟨⟨h0, h1⟩, h2⟩, h3⟩, h4⟩, h5⟩, h6⟩ := h
  simp [htmlReplacement, h0, h1, h2, h3, h4, h5, h6]

theorem htmlEscaper_length_le (l : List Char) :
    l.length ≤ (htmlEscaper (String.mk l)).data.length := by
  induction l with
  | nil => simp
  | cons c l ih =>
    rw [htmlEscaper_data_cons, List.length_append, List.length_cons]
    have h1 : 1 ≤ ((htmlReplacement c).getD (String.singleton c)).data.length := by
      unfold htmlReplacement
      split_ifs <;> simp
    omega

theorem htmlEscaper_ne_of_special (l : List Char) (h : l.any isHtmlSpecial = true) :
    (htmlEscaper (String.mk l)).data ≠ l := by
  induction l with
  | nil => simp at h
  | cons c l ih =>
    rw [htmlEscaper_data_cons]
    intro heq
    by_cases hc : isHtmlSpecial c = true
    · have hlen := htmlEscaper_length_le l
      simp only [isHtmlSpecial, Bool.or_eq_true, beq_iff_eq] at hc
      rcases hc with (((((hc | hc) | hc) | hc) | hc) | hc) | hc <;> subst hc <;>
        simp [htmlReplacement] at heq
      -- the ampersand: the tail would have to hold its own escaped text
      have := congrArg List.length heq
      simp only [List.length_cons, List.length_append, String.length] at this hlen
      omega
    · have hc' : isHtmlSpecial c = false := by simpa using hc
      rw [htmlReplacement_of_not_special c hc'] at heq
      simp only [Option.getD_none, String.data_singleton, List.singleton_append,
        List.cons.injEq, true_and] at heq
      have hl : l.any isHtmlSpecial = true := by
        simpa [List.any_cons, hc'] using h
      exact ih hl heq

theorem filterSubnets_rendered (w : CommandWriter) (n : Int) (allow block : List String) :
    (filterSubnets w n allow block).1.map Command.text =
      ["client-pf " ++ toString n ++ "\n[CLIENTS DROP]\n[SUBNETS ACCEPT]\n" ++
        String.join (allow.map fun a => "+" ++ htmlEscaper a ++ "\n") ++
        String.join (block.map fun b => "-" ++ htmlEscaper b ++ "\n") ++ "[END]\nEND\n"] := by
  unfold filterSubnets
  rw [executeTemplate_filterLAN, htmlEscaper_id _ (intToString_safe n)]
  simp only [List.map_cons, List.map_nil, Command.text, List.cons.injEq, and_true]
  apply String.ext
  have e1 := shift_newline "+" (allow.map htmlEscaper)
    ((String.join (block.map fun b => "-" ++ htmlEscaper b ++ "\n")).data ++ "[END]\nEND\n".data)
  have e2 := shift_newline "-" (block.map htmlEscaper) "[END]\nEND\n".data
  have s1 : (fun e : String => "\n+" ++ htmlEscaper e) =
      (fun e => "\n" ++ "+" ++ e) ∘ htmlEscaper := rfl
  have s2 : (fun e : String => "\n-" ++ htmlEscaper e) =
      (fun e => "\n" ++ "-" ++ e) ∘ htmlEscaper := rfl
  have t1 : "\n[END]\nEND\n".data = '\n' :: "[END]\nEND\n".data := rfl
  have t2 : "\n[CLIENTS DROP]\n[SUBNETS ACCEPT]\n".data =
      "\n[CLIENTS DROP]\n[SUBNETS ACCEPT]".data ++ ['\n'] := rfl
  simp only [List.map_map, Function.comp_def] at e1 e2
  simp only [String.data_append, List.append_assoc, s1, s2, t1, t2, Function.comp_def]
  simp only [List.cons_append, List.nil_append] at e1 e2 ⊢
  rw [e2, e1]

/-- Claim C13: `filterSubnets` passes every allow and block entry through the HTML
escaper, and nothing else: the text is the skeleton, the literal sign and the escaped
entry per line. An entry without a character of the escaper's table is emitted
unchanged; an entry with such a character is emitted changed, so its line is not the
sign followed by the entry, and the text for that single entry is not the verbatim
one; the ampersand becomes `&amp;` and the plus `&#43;`. -/
theorem filterSubnets_escapes_entries (w : CommandWriter) (n : Int)
    (allow block : List String) (e : String) :
    (filterSubnets w n allow block).1.map Command.text =
        ["client-pf " ++ toString n ++ "\n[CLIENTS DROP]\n[SUBNETS ACCEPT]\n" ++
          String.join (allow.map fun a => "+" ++ htmlEscaper a ++ "\n") ++
          String.join (block.map fun b => "-" ++ htmlEscaper b ++ "\n") ++ "[END]\nEND\n"] ∧
      (e.data.any isHtmlSpecial = false → htmlEscaper e = e) ∧
      (e.data.any isHtmlSpecial = true →
        htmlEscaper e ≠ e ∧ "+" ++ htmlEscaper e ≠ "+" ++ e ∧
          "-" ++ htmlEscaper e ≠ "-" ++ e ∧
          (filterSubnets w n [e] []).1.map Command.text ≠
            ["client-pf " ++ toString n ++ "\n[CLIENTS DROP]\n[SUBNETS ACCEPT]\n" ++
              "+" ++ e ++ "\n" ++ "[END]\nEND\n"] ∧
          (filterSubnets w n [] [e]).1.map Command.text ≠
            ["client-pf " ++ toString n ++ "\n[CLIENTS DROP]\n[SUBNETS ACCEPT]\n" ++
              "-" ++ e ++ "\n" ++ "[END]\nEND\n"]) ∧
      htmlEscaper "&" = "&amp;" ∧ htmlEscaper "+" = "&#43;" ∧
      htmlEscaper "<" = "&lt;" ∧ htmlEscaper ">" = "&gt;" ∧
      htmlEscaper (String.singleton (Char.ofNat 34)) = "&#34;" ∧
      htmlEscaper (String.singleton (Char.ofNat 39)) = "&#39;" ∧
      htmlEscaper "10.0.0.0/8" = "10.0.0.0/8" := by
  refine ⟨filterSubnets_rendered w n allow block, ?_, ?_, by decide, by decide, by decide,
    by decide, by decide, by decide, by decide⟩
  · intro h
    apply htmlEscaper_id
    intro c hc
    apply htmlReplacement_of_not_special
    by_contra hs
    have : e.data.any isHtmlSpecial = true :=
      List.any_eq_true.2 ⟨c, hc, by simpa using hs⟩
    rw [h] at this
    cases this
  · intro h
    have hne : (htmlEscaper e).data ≠ e.data := htmlEscaper_ne_of_special e.data h
    refine ⟨fun heq => hne (by rw [heq]), ?_, ?_, ?_, ?_⟩
    · intro heq
      apply hne
      simpa [String.ext_iff] using heq
    · intro heq
      apply hne
      simpa [String.ext_iff] using heq
    · rw [filterSubnets_rendered]
      intro heq
      apply hne
      simpa [String.ext_iff, join_cons, join_nil] using heq
    · rw [filterSubnets_rendered]
      intro heq
      apply hne
      simpa [String.ext_iff, join_cons, join_nil] using heq

/-- Witness for claim C13: the entry `a&b` in the allow list of client 0. -/
theorem filterSubnets_escapes_entries_witness :
    htmlEscaper "a&b" ≠ "a&b" ∧ htmlEscaper "10.0.0.0/8" = "10.0.0.0/8" ∧
      (filterSubnets ⟨fun _ => none⟩ 0 ["a&b"] ["1+1"]).1 =
        [.SingleLineCommand
          "client-pf 0\n[CLIENTS DROP]\n[SUBNETS ACCEPT]\n+a&amp;b\n-1&#43;1\n[END]\nEND\n"] ∧
      (filterSubnets ⟨fun _ => none⟩ 0 ["a&b"] []).1.map Command.text ≠
        ["client-pf " ++ toString (0 : Int) ++ "\n[CLIENTS DROP]\n[SUBNETS ACCEPT]\n" ++
          "+" ++ "a&b" ++ "\n" ++ "[END]\nEND\n"] :=
  ⟨((filterSubnets_escapes_entries ⟨fun _ => none⟩ 0 ["a&b"] [] "a&b").2.2.1 (by decide)).1,
    (filterSubnets_escapes_entries ⟨fun _ => none⟩ 0 ["a&b"] [] "10.0.0.0/8").2.1 (by decide),
    by decide,
    ((filterSubnets_escapes_entries ⟨fun _ => none⟩ 0 ["a&b"] [] "a&b").2.2.1
      (by decide)).2.2.2.1⟩

end Openvpn
